import Mathlib

/-!
Shallow embedding of the trading-strategy core (scanner, SR levels,
multi-timeframe context, pullback detector, decision engine) over ℚ,
with theorems checking the natural-language specification.

Python floats are modelled as exact rationals; Python `round(x, n)`
(round-half-to-even) is modelled by `pyRound`.  Collaborator modules that
are not part of the analysed sources (volume / volatility / liquidity
analyzers, ATR indicator, VWAP context) are passed as explicit function
or value parameters, so every theorem quantifies over their behaviour.
-/

/-- Floor of a rational (kernel-computable form of `⌊q⌋`). -/
def ratFloor (q : ℚ) : ℤ := q.num / (q.den : ℤ)

/-- Round-half-to-even on ℚ, returning an integer (Python `round(x)`). -/
def roundHalfEven (q : ℚ) : ℤ :=
  let f : ℤ := ratFloor q
  let r : ℚ := q - f
  if r < 1/2 then f
  else if 1/2 < r then f + 1
  else if f % 2 = 0 then f else f + 1

/-- Python `round(x, n)` on rationals. -/
def pyRound (q : ℚ) (n : ℕ) : ℚ :=
  (roundHalfEven (q * 10 ^ n) : ℚ) / 10 ^ n

/-- Last `n` elements of a list (Python `l[-n:]`). -/
def lastN {α : Type} (n : ℕ) (l : List α) : List α :=
  l.drop (l.length - n)

/-- Python `l[i]` for a non-negative index, defaulting to `d` (indices used
by the embedded code are in range on every reachable path). -/
def idx {α : Type} (l : List α) (i : ℕ) (d : α) : α := l.getD i d

/-- Python `l[-k]` (k-th element from the end), defaulting to `d`. -/
def idxNeg {α : Type} (l : List α) (k : ℕ) (d : α) : α :=
  l.getD (l.length - k) d

/-- Trade direction (`"LONG"` / `"SHORT"` in the source). -/
inductive TradeDir | LONG | SHORT
deriving DecidableEq, Repr

/-- SR level type (`"support"` / `"resistance"` in the source). -/
inductive SRType | support | resistance
deriving DecidableEq, Repr

/-- Higher-timeframe bias / MTF direction
(`"BULLISH"` / `"BEARISH"` / `"NEUTRAL"` strings in the source). -/
inductive Bias | BULLISH | BEARISH | NEUTRAL
deriving DecidableEq, Repr

/-- VWAP acceptance (`"ABOVE"` / `"BELOW"`), from the spec contract for the
excluded VWAP collaborator. -/
inductive Accept | ABOVE | BELOW
deriving DecidableEq, Repr

-- =====================================================
-- strategy/sr_levels.py
-- =====================================================

/-- One clustered SR level: `{"level":…, "count":…, "strength":…}`. -/
structure SRCluster where
  level : ℚ
  count : ℕ
  strength : ℕ
deriving DecidableEq, Repr

/-- Result of `get_nearest_sr`. -/
structure NearestSR where
  typ : SRType
  level : ℚ
  dist_pct : ℚ
  strength : ℚ
deriving DecidableEq, Repr

/-- `_find_local_extrema(values, window)`: strict local maxima and minima
(index, value), edges ignored. -/
def findLocalExtrema (values : List ℚ) (window : ℕ) :
    List (ℕ × ℚ) × List (ℕ × ℚ) :=
  let n := values.length
  if n < window * 2 + 1 then ([], [])
  else
    let half := window / 2
    let pts := (List.range n).filter (fun i => half ≤ i && i + half < n)
    let get := fun i => values.getD i 0
    let neigh := fun i =>
      (values.drop (i - half)).take half ++ (values.drop (i + 1)).take half
    let maxima := (pts.filter (fun i => (neigh i).all (fun x => x < get i))).map
      (fun i => (i, get i))
    let minima := (pts.filter (fun i => (neigh i).all (fun x => get i < x))).map
      (fun i => (i, get i))
    (maxima, minima)

/-- One greedy step of `_cluster_levels`: fold state is
(closed clusters, current cluster). -/
def clusterStep (tol_pct : ℚ) (acc : List (List ℚ) × List ℚ) (p : ℚ) :
    List (List ℚ) × List ℚ :=
  let avg := acc.2.sum / (acc.2.length : ℚ)
  let tol := avg * tol_pct
  if |p - avg| ≤ tol then (acc.1, acc.2 ++ [p])
  else (acc.1 ++ [acc.2], [p])

/-- `_cluster_levels(peaks, tol_pct)`. -/
def clusterLevels (peaks : List ℚ) (tol_pct : ℚ) : List SRCluster :=
  match List.insertionSort (· ≤ ·) peaks with
  | [] => []
  | p0 :: rest =>
    let st := rest.foldl (clusterStep tol_pct) ([], [p0])
    (st.1 ++ [st.2]).map (fun c =>
      { level := pyRound (c.sum / (c.length : ℚ)) 6
        count := c.length
        strength := c.length })

/-- `compute_sr_levels(highs, lows, lookback, extrema_window,
cluster_tol_pct, max_levels)`: supports ascending, resistances descending. -/
def computeSrLevels (highs lows : List ℚ) (lookback extrema_window : ℕ)
    (cluster_tol_pct : ℚ) (max_levels : ℕ) : List SRCluster × List SRCluster :=
  let highs_s := lastN lookback highs
  let lows_s := lastN lookback lows
  if highs_s = [] ∨ lows_s = [] then ([], [])
  else
    let max_extrema := (findLocalExtrema highs_s extrema_window).1
    let min_extrema := (findLocalExtrema lows_s extrema_window).2
    let resistances := max_extrema.map Prod.snd
    let supports := min_extrema.map Prod.snd
    let resist_clusters := clusterLevels resistances cluster_tol_pct
    let supp_clusters := clusterLevels supports cluster_tol_pct
    let supp_sorted :=
      (List.insertionSort (fun a b => a.level ≤ b.level) supp_clusters).take max_levels
    let res_sorted :=
      (List.insertionSort (fun a b => b.level ≤ a.level) resist_clusters).take max_levels
    (supp_sorted, res_sorted)

/-- `get_nearest_sr(price, sr_levels, max_search_pct)`: scan supports then
resistances, keep the strictly smaller distance. -/
def getNearestSr (price : ℚ) (supports resistances : List SRCluster)
    (max_search_pct : ℚ) : Option NearestSR :=
  let supCands := supports.map (fun s =>
    { typ := SRType.support, level := s.level
      dist_pct := |price - s.level| / max s.level (1/1000000000)
      strength := (s.strength : ℚ) : NearestSR })
  let resCands := resistances.map (fun r =>
    { typ := SRType.resistance, level := r.level
      dist_pct := |r.level - price| / max price (1/1000000000)
      strength := (r.strength : ℚ) : NearestSR })
  let best := (supCands ++ resCands).foldl
    (fun best cand =>
      match best with
      | none => some cand
      | some b => if cand.dist_pct < b.dist_pct then some cand else some b)
    none
  match best with
  | none => none
  | some b => if b.dist_pct ≤ max_search_pct then some b else none

/-- Closeness factor of `sr_location_score`:
`max(0.0, (t - d) / (t + 1e-9))`. -/
def closenessFactor (t d : ℚ) : ℚ := max 0 ((t - d) / (t + 1/1000000000))

/-- Strength modifier of `sr_location_score`:
`min(1.5, 0.5 + 0.25 * strength)`. -/
def strengthFactor (s : ℚ) : ℚ := min (3/2) (1/2 + s/4)

/-- Sign of `sr_location_score`: +1 when the level type favours the
direction (support for LONG, resistance for SHORT), −1 otherwise. -/
def srSign (dir : TradeDir) (typ : SRType) : ℚ :=
  match dir, typ with
  | .LONG, .support => 1
  | .LONG, .resistance => -1
  | .SHORT, .resistance => 1
  | .SHORT, .support => -1

/-- Clamp to `[-1, 1]` as in the tail of `sr_location_score`. -/
def clamp1 (x : ℚ) : ℚ := if x > 1 then 1 else if x < -1 then -1 else x

/-- `sr_location_score(price, nearest_sr, direction, proximity_threshold)`. -/
def srLocationScore (price : ℚ) (nearest : Option NearestSR) (dir : TradeDir)
    (proximity_threshold : ℚ) : ℚ :=
  match nearest with
  | none => 0
  | some sr =>
    if sr.dist_pct > proximity_threshold then 0
    else
      pyRound (clamp1 (srSign dir sr.typ *
        closenessFactor proximity_threshold sr.dist_pct *
        strengthFactor sr.strength)) 3

-- =====================================================
-- strategy/mtf_context.py
-- =====================================================

/-- An aggregated candle as consumed by `analyze_mtf` (only `open`/`close`
are read, via `candle.get`). `Option` models Python `None`/falsy dicts. -/
structure Candle where
  copen : ℚ
  cclose : ℚ
deriving DecidableEq, Repr

/-- `MTFContext` dataclass. -/
structure MTFContext where
  direction : Bias
  strength : ℚ
  confidence : String
  conflict : Bool
  comment : String
deriving DecidableEq, Repr

/-- `_is_bullish(candle)`: close > open. -/
def isBullish (c : Candle) : Bool := c.copen < c.cclose

/-- `_is_bearish(candle)`: close < open. -/
def isBearish (c : Candle) : Bool := c.cclose < c.copen

/-- `_persistence_score(history)`: 0.0 / 0.3 / 0.6 from the last 3 candles.
An absent (`None`) history behaves as the empty list. -/
def persistenceScore (history : List Candle) : ℚ :=
  if history.length < 2 then 0
  else
    let last := lastN 3 history
    let bull := (last.filter isBullish).length
    let bear := (last.filter isBearish).length
    if bull = 3 ∨ bear = 3 then 3/5
    else if 2 ≤ bull ∨ 2 ≤ bear then 3/10
    else 0

/-- Directional vote of the latest 5m candle (±0.7). -/
def vote5m (c : Option Candle) : ℚ :=
  match c with
  | none => 0
  | some c => if isBullish c then 7/10 else if isBearish c then -(7/10) else 0

/-- Directional vote of the latest 15m candle (±1.3). -/
def vote15m (c : Option Candle) : ℚ :=
  match c with
  | none => 0
  | some c => if isBullish c then 13/10 else if isBearish c then -(13/10) else 0

/-- Conflict flag of `analyze_mtf`: both candles present and opposite. -/
def mtfConflict (c5 c15 : Option Candle) : Bool :=
  match c5, c15 with
  | some a, some b => (isBullish a && isBearish b) || (isBearish a && isBullish b)
  | _, _ => false

/-- The accumulated score of `analyze_mtf` (votes, conflict damping, then
persistence bonuses). -/
def mtfRawScore (c5 c15 : Option Candle) (h5 h15 : List Candle) : ℚ :=
  let base := vote5m c5 + vote15m c15
  let damped := if mtfConflict c5 c15 then base * (1/2) else base
  damped + persistenceScore h5 + persistenceScore h15

/-- `analyze_mtf(candle_5m, candle_15m, history_5m, history_15m)`. -/
def analyzeMtf (c5 c15 : Option Candle) (h5 h15 : List Candle) : MTFContext :=
  let conflict := mtfConflict c5 c15
  let score := mtfRawScore c5 c15 h5 h15
  let direction :=
    if |score| < 3/5 then Bias.NEUTRAL
    else if 0 < score then Bias.BULLISH
    else Bias.BEARISH
  let strength := pyRound (min |score| 2) 2
  let confidence :=
    if 7/5 ≤ strength ∧ conflict = false then "HIGH"
    else if 4/5 ≤ strength then "MEDIUM"
    else "LOW"
  { direction := direction, strength := strength, confidence := confidence
    conflict := conflict, comment := "" }

/-- Comparison variant of `analyze_mtf` with the conflict damping removed
(the "same inputs without the conflict damping" computation the spec
describes); used only to state the halving claim. -/
def analyzeMtfUndamped (c5 c15 : Option Candle) (h5 h15 : List Candle) : MTFContext :=
  let conflict := mtfConflict c5 c15
  let score := vote5m c5 + vote15m c15 + persistenceScore h5 + persistenceScore h15
  let direction :=
    if |score| < 3/5 then Bias.NEUTRAL
    else if 0 < score then Bias.BULLISH
    else Bias.BEARISH
  let strength := pyRound (min |score| 2) 2
  let confidence :=
    if 7/5 ≤ strength ∧ conflict = false then "HIGH"
    else if 4/5 ≤ strength then "MEDIUM"
    else "LOW"
  { direction := direction, strength := strength, confidence := confidence
    conflict := conflict, comment := "" }

-- =====================================================
-- strategy/price_action.py
-- =====================================================

/-- `_atr(highs, lows, closes, period=14)`. -/
def paAtr (highs lows closes : List ℚ) (period : ℕ) : Option ℚ :=
  if closes.length < period + 1 then none
  else
    let trs := (List.range (closes.length - 1)).map (fun j =>
      let i := j + 1
      max (idx highs i 0 - idx lows i 0)
        (max |idx highs i 0 - idx closes (i - 1) 0|
             |idx lows i 0 - idx closes (i - 1) 0|))
    if trs.length < period then none
    else some ((lastN period trs).sum / (period : ℚ))

/-- Result of `detect_quality_pullback`. -/
structure QualityPullback where
  typ : String
  depth : ℚ
deriving DecidableEq, Repr

/-- `detect_quality_pullback(closes, highs, lows, ema_short, ema_long,
atr_value, lookback=8)`. -/
def detectQualityPullback (closes highs lows : List ℚ)
    (ema_short ema_long : Option ℚ) (atr_value : Option ℚ) (lookback : ℕ) :
    Option QualityPullback :=
  match atr_value with
  | none => none
  | some atr =>
    if closes.length < lookback + 2 ∨ atr ≤ 0 then none
    else
      let last := idxNeg closes 1 0
      let window := (lastN (lookback + 1) closes).dropLast
      let swing_high := window.foldl max (window.headD 0)
      let swing_low := window.foldl min (window.headD 0)
      let up_depth := swing_high - last
      let down_depth := last - swing_low
      let min_depth := atr * (1/4)
      let max_depth := atr * (11/10)
      let trend : Option Bool :=
        match ema_short, ema_long with
        | some s, some l => if l < s then some true else if s < l then some false else none
        | _, _ => none
      if trend = some true ∧ min_depth ≤ up_depth ∧ up_depth ≤ max_depth then
        some { typ := "PULLBACK_UP", depth := pyRound (up_depth / max last (1/1000000000)) 4 }
      else if trend = some false ∧ min_depth ≤ down_depth ∧ down_depth ≤ max_depth then
        some { typ := "PULLBACK_DOWN", depth := pyRound (down_depth / max last (1/1000000000)) 4 }
      else none

/-- Result of `rejection_info`. -/
structure RejectionInfo where
  rejection_type : Option String
  rejection_score : ℚ
deriving DecidableEq, Repr

/-- `rejection_info(open_p, high, low, close, atr_value)`. -/
def rejectionInfo (open_p high low close : ℚ) (atr_value : Option ℚ) :
    RejectionInfo :=
  let body := |close - open_p|
  let upper_wick := max 0 (high - max close open_p)
  let lower_wick := max 0 (min close open_p - low)
  match atr_value with
  | none => { rejection_type := none, rejection_score := 0 }
  | some atr =>
    if atr ≤ 0 then { rejection_type := none, rejection_score := 0 }
    else
      let min_wick := atr * (1/5)
      if min_wick ≤ lower_wick ∧ body * (7/5) < lower_wick then
        { rejection_type := some "BULLISH"
          rejection_score := min 1 (lower_wick / (atr * (3/2))) }
      else if min_wick ≤ upper_wick ∧ body * (7/5) < upper_wick then
        { rejection_type := some "BEARISH"
          rejection_score := min 1 (upper_wick / (atr * (3/2))) }
      else { rejection_type := none, rejection_score := 0 }

/-- `momentum_quality(closes, atr_value, bars=5)`. -/
def momentumQuality (closes : List ℚ) (atr_value : Option ℚ) (bars : ℕ) : ℚ :=
  match atr_value with
  | none => 0
  | some atr =>
    if closes.length < bars + 1 then 0
    else
      let move := idxNeg closes 1 0 - idxNeg closes (bars + 1) 0
      pyRound (|move| / max atr (1/1000000000)) 3

/-- Output of `price_action_context`. -/
structure PAResult where
  pullback : Option String
  rejection_type : Option String
  momentum : ℚ
  score : ℚ
  quality : String
deriving DecidableEq, Repr

/-- `price_action_context(opens, highs, lows, closes, ema_short, ema_long)`. -/
def priceActionContext (opens highs lows closes : List ℚ)
    (ema_short ema_long : Option ℚ) : PAResult :=
  if closes.length < 15 then
    { pullback := none, rejection_type := none, momentum := 0, score := 0
      quality := "LOW" }
  else
    let atr_value := paAtr highs lows closes 14
    let pb := detectQualityPullback closes highs lows ema_short ema_long atr_value 8
    let rej := rejectionInfo (idxNeg opens 1 0) (idxNeg highs 1 0)
      (idxNeg lows 1 0) (idxNeg closes 1 0) atr_value
    let mom := momentumQuality closes atr_value 5
    let score0 : ℚ := if pb.isSome then 4/5 else 0
    let score1 : ℚ :=
      if rej.rejection_type = some "BULLISH" then score0 + 9/10
      else if rej.rejection_type = some "BEARISH" then score0 - 9/10
      else score0
    let score2 : ℚ := if 2/5 ≤ mom then score1 + 7/10 else score1 - 2/5
    let score3 : ℚ :=
      match ema_short, ema_long, pb with
      | some s, some l, some p =>
        if s ≠ 0 ∧ l ≠ 0 then
          if l < s ∧ p.typ = "PULLBACK_UP" then score2 + 2/5
          else if s < l ∧ p.typ = "PULLBACK_DOWN" then score2 - 2/5
          else score2
        else score2
      | _, _, _ => score2
    let quality :=
      if 8/5 ≤ |score3| then "HIGH"
      else if 1 ≤ |score3| then "MEDIUM"
      else "LOW"
    { pullback := pb.map QualityPullback.typ
      rejection_type := rej.rejection_type
      momentum := mom
      score := pyRound score3 3
      quality := quality }

-- =====================================================
-- Collaborator contracts (external modules, spec section 6)
-- =====================================================

/-- Modelled from the spec: output of the excluded volume analyzer
`analyze_volume(volumes, close_prices)` — `{score, strength}`. -/
structure VolumeCtx where
  score : ℚ
  strength : String
deriving DecidableEq, Repr

/-- Modelled from the spec: output of the excluded volatility analyzer
`analyze_volatility(current_move, atr_value)` — `{state}`. -/
structure VolatCtx where
  state : String
deriving DecidableEq, Repr

/-- Modelled from the spec: output of the excluded liquidity analyzer
`analyze_liquidity(volumes)` — `{score}`. -/
structure LiqCtx where
  score : ℚ
deriving DecidableEq, Repr

/-- Modelled from the spec: the excluded `VWAPContext`
(`{vwap, acceptance, score}`). -/
structure VWAPContext where
  vwap : ℚ
  acceptance : Accept
  score : ℚ
deriving DecidableEq, Repr

/-- Type of the excluded `compute_atr(highs, lows, closes)` collaborator
(`None` on insufficient history). -/
def AtrFn : Type := List ℚ → List ℚ → List ℚ → Option ℚ

/-- Type of the excluded `analyze_volatility(move, atr)` collaborator. -/
def VolatFn : Type := ℚ → Option ℚ → VolatCtx

/-- Type of the excluded `analyze_volume(volumes, close_prices)`
collaborator. -/
def VolumeFn : Type := List ℚ → List ℚ → VolumeCtx

/-- Type of the excluded `analyze_liquidity(volumes)` collaborator. -/
def LiqFn : Type := List ℚ → LiqCtx

-- =====================================================
-- strategy/pullback_detector.py
-- =====================================================

/-- Signal classification of the pullback detector. -/
inductive SigClass | CONFIRMED | POTENTIAL
deriving DecidableEq, Repr

/-- The dict returned by `detect_pullback_signal` (component scores kept
as the ordered key/value list the source builds). -/
structure PullbackSignal where
  signal : SigClass
  direction : TradeDir
  score : ℚ
  nearest_level : Option NearestSR
  components : List (String × ℚ)
deriving DecidableEq, Repr

/-- The 6-component score list built by `detect_pullback_signal`
(insertion order of the source dict). -/
def pullbackComponents (location pa_score vol_score momentum potential : ℚ) :
    List (String × ℚ) :=
  [("location", location), ("price_action", pa_score), ("volume", vol_score),
   ("volatility", 3/2), ("momentum", momentum), ("potential", potential)]

/-- Final classification step of `detect_pullback_signal`: CONFIRMED at
total ≥ 7.0, POTENTIAL at total ≥ 5.0, otherwise no signal; the score field
is the rounded total. -/
def classifySignal (trade_direction : TradeDir) (nearest : NearestSR)
    (components : List (String × ℚ)) : Option PullbackSignal :=
  if 7 ≤ (components.map Prod.snd).sum then
    some { signal := SigClass.CONFIRMED, direction := trade_direction,
           score := pyRound ((components.map Prod.snd).sum) 2,
           nearest_level := some nearest, components := components }
  else if 5 ≤ (components.map Prod.snd).sum then
    some { signal := SigClass.POTENTIAL, direction := trade_direction,
           score := pyRound ((components.map Prod.snd).sum) 2,
           nearest_level := some nearest, components := components }
  else none

/-- `detect_pullback_signal(opens, highs, lows, closes, volumes,
htf_direction, min_bars=40)`, with the excluded collaborators
(`compute_atr`, `analyze_volatility`, `analyze_volume`) passed in. -/
def detectPullbackSignal (fATR : AtrFn) (fVolat : VolatFn) (fVolume : VolumeFn)
    (opens highs lows closes volumes : List ℚ) (htf_direction : Bias)
    (min_bars : ℕ) : Option PullbackSignal :=
  if closes.length < min_bars then none
  else
    match getNearestSr (idxNeg closes 1 0)
        (computeSrLevels highs lows 240 5 (5/1000) 5).1
        (computeSrLevels highs lows 240 5 (5/1000) 5).2 (15/1000) with
    | none => none
    | some nearest =>
      match (if nearest.typ = SRType.support ∧ htf_direction = Bias.BULLISH
          then some TradeDir.LONG
          else if nearest.typ = SRType.resistance ∧
              htf_direction = Bias.BEARISH
          then some TradeDir.SHORT
          else none) with
      | none => none
      | some trade_direction =>
        match fATR highs lows closes with
        | none => none
        | some atr =>
          if atr ≤ 0 then none
          else if atr / max (idxNeg closes 1 0) (1/1000000000) < 45/10000 then
            none
          else if atr * (13/10) < |idxNeg closes 1 0 - idxNeg closes 8 0| then
            none
          else if (fVolat (idxNeg closes 1 0 - idxNeg closes 2 0)
              (some atr)).state ≠ "EXPANDING" then none
          else if (priceActionContext opens highs lows closes none
              none).quality ≠ "HIGH" then none
          else if (fVolume volumes closes).score < 1 then none
          else if |idxNeg closes 1 0 - idxNeg closes 6 0| / atr < 45/100 then
            none
          else if nearest.dist_pct < 65/10000 then none
          else
            classifySignal trade_direction nearest
              (pullbackComponents
                (min (max 0 ((15/1000 - nearest.dist_pct) * 80)) 2)
                |(priceActionContext opens highs lows closes none none).score|
                (fVolume volumes closes).score
                (min (|idxNeg closes 1 0 - idxNeg closes 6 0| / atr) 2)
                (min (nearest.dist_pct * 100) 2))

-- =====================================================
-- strategy/decision_engine.py
-- =====================================================

/-- Decision state (`IGNORE | PREPARE_* | EXECUTE_*`). -/
inductive DState
  | IGNORE
  | PREPARE (d : TradeDir)
  | EXECUTE (d : TradeDir)
deriving DecidableEq, Repr

/-- `DecisionResult` dataclass. -/
structure DecisionResult where
  state : DState
  score : ℚ
  direction : Option TradeDir
  components : List (String × ℚ)
  reason : String
deriving DecidableEq, Repr

/-- `final_trade_decision(inst_key, prices, highs, lows, closes, volumes,
market_regime, htf_bias_direction, vwap_ctx, pullback_signal)`, with the
excluded collaborators (`compute_atr`, `analyze_volatility`,
`analyze_volume`, `analyze_liquidity`) passed in.  Listener-free and total:
every gate failure is an explicit `IGNORE` result. -/
def finalTradeDecision (fATR : AtrFn) (fVolat : VolatFn) (fVolume : VolumeFn)
    (fLiq : LiqFn) (inst_key : String)
    (prices highs lows closes volumes : List ℚ)
    (market_regime : String) (htf_bias_direction : Bias)
    (vwap_ctx : VWAPContext) (pullback_signal : Option PullbackSignal) :
    DecisionResult :=
  match pullback_signal with
  | none => { state := DState.IGNORE, score := 0, direction := none
              components := [], reason := "no pullback setup" }
  | some sig =>
    let direction := sig.direction
    if sig.signal = SigClass.POTENTIAL then
      { state := DState.PREPARE direction, score := 2, direction := some direction
        components := [("structure", 2)]
        reason := "potential setup - waiting for strength" }
    else
      -- CONFIRMED only
      if direction = TradeDir.LONG ∧ htf_bias_direction ≠ Bias.BULLISH then
        { state := DState.IGNORE, score := 0, direction := none
          components := [], reason := "htf misaligned" }
      else if direction = TradeDir.SHORT ∧ htf_bias_direction ≠ Bias.BEARISH then
        { state := DState.IGNORE, score := 0, direction := none
          components := [], reason := "htf misaligned" }
      else if market_regime ≠ "TRENDING" then
        { state := DState.IGNORE, score := 0, direction := none
          components := [], reason := "not a trend regime" }
      else if direction = TradeDir.LONG ∧ vwap_ctx.acceptance ≠ Accept.ABOVE then
        { state := DState.IGNORE, score := 0, direction := none
          components := [], reason := "not accepted above VWAP" }
      else if direction = TradeDir.SHORT ∧ vwap_ctx.acceptance ≠ Accept.BELOW then
        { state := DState.IGNORE, score := 0, direction := none
          components := [], reason := "not accepted below VWAP" }
      else
        let vol_ctx := fVolume volumes closes
        if vol_ctx.score < 1 then
          { state := DState.IGNORE, score := 0, direction := none
            components := [], reason := "volume not strong enough" }
        else
          let atr := fATR highs lows closes
          let move := if 1 < closes.length
            then idxNeg closes 1 0 - idxNeg closes 2 0 else 0
          let volat_ctx := fVolat move atr
          if volat_ctx.state ≠ "EXPANDING" then
            { state := DState.IGNORE, score := 0, direction := none
              components := [], reason := "volatility not expanding" }
          else
            let liq_ctx := fLiq volumes
            if liq_ctx.score < 0 then
              { state := DState.IGNORE, score := 0, direction := none
                components := [], reason := "illiquid instrument" }
            else
              let pa_ctx := priceActionContext closes highs lows closes none none
              if pa_ctx.quality ≠ "HIGH" then
                { state := DState.IGNORE, score := 0, direction := none
                  components := [], reason := "price action not high quality" }
              else
                let nearest := sig.nearest_level
                let sr_score := srLocationScore (idxNeg closes 1 0) nearest direction (15/1000)
                if sr_score ≤ 0 then
                  { state := DState.IGNORE, score := 0, direction := none
                    components := [], reason := "poor SR location" }
                else
                  let components : List (String × ℚ) :=
                    [("structure", 4), ("htf", 2), ("regime", 3/2), ("vwap", 3/2),
                     ("volume", vol_ctx.score), ("volatility", 3/2),
                     ("liquidity", 1), ("price_action", |pa_ctx.score|),
                     ("sr", sr_score)]
                  let raw := 4 + 2 + 3/2 + 3/2 + vol_ctx.score + 3/2 + 1 +
                    |pa_ctx.score| + sr_score * (3/2)
                  let score := pyRound (min raw 10) 2
                  if 8 ≤ score then
                    { state := DState.EXECUTE direction, score := score
                      direction := some direction, components := components
                      reason := "institutional-grade setup" }
                  else if 13/2 ≤ score then
                    { state := DState.PREPARE direction, score := score
                      direction := some direction, components := components
                      reason := "good setup but needs trigger" }
                  else
                    { state := DState.IGNORE, score := score, direction := none
                      components := components
                      reason := "edge not strong enough" }

-- =====================================================
-- strategy/scanner.py (MarketScanner)
-- =====================================================

/-- One stored 1-minute bar dict. `time` is the bar's minute key (the
minute-truncated timestamp string of the source, modelled as the number
of minutes since the epoch). -/
structure Bar where
  time : ℕ
  open_p : ℚ
  high_p : ℚ
  low_p : ℚ
  close_p : ℚ
  volume : ℚ
deriving DecidableEq, Repr

/-- A possibly malformed bar dict fed to `replay_bars` (missing keys are
`none`); bars with any missing field are skipped. -/
structure RawBar where
  time : Option ℕ
  open_p : Option ℚ
  high_p : Option ℚ
  low_p : Option ℚ
  close_p : Option ℚ
  volume : Option ℚ
deriving DecidableEq, Repr

/-- Validation of `replay_bars`: all six keys present. -/
def RawBar.valid (rb : RawBar) : Bool :=
  rb.time.isSome && rb.open_p.isSome && rb.high_p.isSome && rb.low_p.isSome &&
  rb.close_p.isSome && rb.volume.isSome

/-- Conversion of a validated raw bar. -/
def RawBar.toBar (rb : RawBar) : Bar :=
  { time := rb.time.getD 0, open_p := rb.open_p.getD 0, high_p := rb.high_p.getD 0
    low_p := rb.low_p.getD 0, close_p := rb.close_p.getD 0
    volume := rb.volume.getD 0 }

/-- `DEFAULT_MAX_LEN` of the scanner. -/
def DEFAULT_MAX_LEN : ℕ := 600

/-- Keep the last `cap` elements (`deque(maxlen=cap)` contents). -/
def truncRight {α : Type} (cap : ℕ) (l : List α) : List α :=
  l.drop (l.length - cap)

/-- `deque.append` on a `deque(maxlen=cap)`: append right, evict left. -/
def pushRing {α : Type} (cap : ℕ) (l : List α) (a : α) : List α :=
  truncRight cap (l ++ [a])

/-- The scanner state relevant to bar storage: per-instrument ring buffers
(association list, oldest bar first) plus the two counters. -/
structure ScannerState where
  maxLen : ℕ
  bars : List (String × List Bar)
  barsReceived : ℕ
  barsClosed : ℕ
deriving DecidableEq, Repr

/-- Fresh scanner (`MarketScanner(max_len)`). -/
def initScanner (max_len : ℕ) : ScannerState :=
  { maxLen := max_len, bars := [], barsReceived := 0, barsClosed := 0 }

/-- Buffer of an instrument (a missing entry behaves as the freshly created
empty deque of `_ensure_inst`). -/
def lookupBars : List (String × List Bar) → String → List Bar
  | [], _ => []
  | (k, v) :: rest, inst => if k = inst then v else lookupBars rest inst

/-- Replace (or first-touch create) an instrument's buffer. -/
def setBars : List (String × List Bar) → String → List Bar →
    List (String × List Bar)
  | [], k, v => [(k, v)]
  | (k', v') :: rest, k, v =>
    if k' = k then (k, v) :: rest else (k', v') :: setBars rest k v

/-- `append_ohlc_bar(inst, time_iso, open_p, high_p, low_p, close_p,
volume)`: state change plus the bar handed to the listeners. -/
def appendOhlcBar (st : ScannerState) (inst : String) (time : ℕ)
    (open_p high_p low_p close_p volume : ℚ) : ScannerState × Bar :=
  let bar : Bar := { time := time, open_p := open_p, high_p := high_p
                     low_p := low_p, close_p := close_p, volume := volume }
  ({ st with
      bars := setBars st.bars inst (pushRing st.maxLen (lookupBars st.bars inst) bar)
      barsClosed := st.barsClosed + 1 }, bar)

/-- `append_tick(inst, timestamp, price, volume)`; `ts` is the tick's
timestamp in seconds, truncated to its minute key by integer division. -/
def appendTick (st : ScannerState) (inst : String) (ts : ℕ) (price volume : ℚ) :
    ScannerState :=
  let timeKey := ts / 60
  let bars := lookupBars st.bars inst
  match bars.getLast? with
  | some lastBar =>
    if lastBar.time = timeKey then
      -- update the in-progress bar in place
      let bar := { lastBar with
        high_p := max lastBar.high_p price
        low_p := min lastBar.low_p price
        close_p := price
        volume := lastBar.volume + volume }
      { st with bars := setBars st.bars inst (bars.dropLast ++ [bar])
                barsReceived := st.barsReceived + 1 }
    else
      let bar : Bar := { time := timeKey, open_p := price, high_p := price
                         low_p := price, close_p := price, volume := volume }
      { st with bars := setBars st.bars inst (pushRing st.maxLen bars bar)
                barsReceived := st.barsReceived + 1 }
  | none =>
    let bar : Bar := { time := timeKey, open_p := price, high_p := price
                       low_p := price, close_p := price, volume := volume }
    { st with bars := setBars st.bars inst (pushRing st.maxLen bars bar)
              barsReceived := st.barsReceived + 1 }

/-- `replay_bars(inst, bars)`: append each well-formed bar, skip the rest. -/
def replayBars (st : ScannerState) (inst : String) (rbars : List RawBar) :
    ScannerState :=
  rbars.foldl (fun s rb =>
    if rb.valid then
      let nb := pushRing s.maxLen (lookupBars s.bars inst) rb.toBar
      { s with bars := setBars s.bars inst nb, barsClosed := s.barsClosed + 1 }
    else s) st

/-- `load_snapshot`: each snapshotted series is loaded into a fresh
`deque(bars, maxlen=max_len)` (keeping the last `max_len` bars). -/
def loadSnapshot (st : ScannerState) (data : List (String × List Bar)) :
    ScannerState :=
  data.foldl (fun s kv =>
    { s with bars := setBars s.bars kv.1 (truncRight s.maxLen kv.2) }) st

/-- One ingestion operation of the scanner. -/
inductive ScanOp
  | ohlc (inst : String) (time : ℕ) (open_p high_p low_p close_p volume : ℚ)
  | tick (inst : String) (ts : ℕ) (price volume : ℚ)
  | replay (inst : String) (rbars : List RawBar)
  | snapshot (data : List (String × List Bar))

/-- Interpret one operation. -/
def runOp (st : ScannerState) : ScanOp → ScannerState
  | .ohlc inst time o h l c v => (appendOhlcBar st inst time o h l c v).1
  | .tick inst ts p v => appendTick st inst ts p v
  | .replay inst rbars => replayBars st inst rbars
  | .snapshot data => loadSnapshot st data

/-- Interpret a sequence of operations. -/
def runOps (st : ScannerState) (ops : List ScanOp) : ScannerState :=
  ops.foldl runOp st

/-- A bar-close listener (the result models a Python callback that either
returns normally or raises; `append_ohlc_bar` swallows the exception). -/
def Listener : Type := String → Bar → Except String Unit

/-- `append_ohlc_bar` including listener dispatch: the per-instrument state
is updated first, then every registered callback is invoked (in
registration order) with the (instrument, bar) pair; each call is wrapped
in `try/except`, so the outcomes are collected and never propagated. -/
def appendOhlcBarDispatch (callbacks : List Listener) (st : ScannerState)
    (inst : String) (time : ℕ) (open_p high_p low_p close_p volume : ℚ) :
    ScannerState × Bar × List (Except String Unit) :=
  let r := appendOhlcBar st inst time open_p high_p low_p close_p volume
  (r.1, r.2, callbacks.map (fun cb => cb inst r.2))

-- =====================================================
-- Concrete instances used by witnesses and counterexamples
-- =====================================================

/-- A `compute_atr` collaborator with no history (`None`). -/
def atrNone : AtrFn := fun _ _ _ => none

/-- A `compute_atr` collaborator returning ATR 1. -/
def atrOne : AtrFn := fun _ _ _ => some 1

/-- A volatility collaborator always reporting EXPANDING. -/
def volatExpanding : VolatFn := fun _ _ => { state := "EXPANDING" }

/-- A volume collaborator with score 1.5. -/
def volumeStrong : VolumeFn := fun _ _ => { score := 3/2, strength := "STRONG" }

/-- A liquidity collaborator with score 1. -/
def liqOk : LiqFn := fun _ => { score := 1 }

/-- A POTENTIAL pullback signal as handed to the decision engine. -/
def potSig : PullbackSignal :=
  { signal := SigClass.POTENTIAL, direction := TradeDir.LONG, score := 5
    nearest_level := none, components := [] }

/-- A 40-bar history: highs flat at 100.5. -/
def wHighs : List ℚ := List.replicate 40 (201/2)

/-- Lows flat at 100 with two local minima at 98.6 and a long lower wick
(99.5) on the final bar. -/
def wLows : List ℚ :=
  (List.range 40).map (fun i =>
    if i = 10 ∨ i = 20 then (493/5 : ℚ) else if i = 39 then 199/2 else 100)

/-- Closes flat at 100 with one dip to 99.4 six bars from the end. -/
def wCloses : List ℚ :=
  (List.range 40).map (fun i => if i = 34 then (497/5 : ℚ) else 100)

/-- Opens flat at 100 with a small body (open 100.1) on the final bar. -/
def wOpens : List ℚ :=
  (List.range 40).map (fun i => if i = 39 then (1001/10 : ℚ) else 100)

/-- Flat volumes. -/
def wVolumes : List ℚ := List.replicate 40 1000

/-- The signal the detector produces on the concrete 40-bar history above
(support cluster at 98.6, bullish rejection bar, POTENTIAL total 6.68). -/
def wSig : PullbackSignal :=
  { signal := SigClass.POTENTIAL, direction := TradeDir.LONG, score := 167/25,
    nearest_level := some ⟨SRType.support, 493/5, 7/493, 2⟩,
    components := [("location", 158/2465), ("price_action", 8/5),
      ("volume", 3/2), ("volatility", 3/2), ("momentum", 3/5),
      ("potential", 700/493)] }

/-- A bar-close listener that always raises. -/
def boomListener : Listener := fun _ _ => Except.error "boom"

-- =====================================================
-- Helper lemmas
-- =====================================================

theorem ratFloor_eq (q : ℚ) : ratFloor q = ⌊q⌋ := by
  rw [ratFloor, Rat.floor_def]

theorem roundHalfEven_bounds (q : ℚ) :
    ⌊q⌋ ≤ roundHalfEven q ∧ roundHalfEven q ≤ ⌊q⌋ + 1 := by
  simp only [roundHalfEven, ratFloor_eq]
  split_ifs <;> omega

theorem roundHalfEven_mono {r s : ℚ} (h : r ≤ s) :
    roundHalfEven r ≤ roundHalfEven s := by
  have hfs : ⌊r⌋ ≤ ⌊s⌋ := Int.floor_le_floor h
  rcases lt_or_eq_of_le hfs with hlt | heq
  · have h1 := (roundHalfEven_bounds r).2
    have h2 := (roundHalfEven_bounds s).1
    omega
  · simp only [roundHalfEven, ratFloor_eq, ← heq]
    have : r - ⌊r⌋ ≤ s - ⌊r⌋ := by linarith
    split_ifs <;> first | omega | linarith

theorem pyRound_mono (n : ℕ) {r s : ℚ} (h : r ≤ s) : pyRound r n ≤ pyRound s n := by
  unfold pyRound
  have hp : (0 : ℚ) < 10 ^ n := by positivity
  have hm : r * 10 ^ n ≤ s * 10 ^ n := by
    exact mul_le_mul_of_nonneg_right h (le_of_lt hp)
  have h2 := roundHalfEven_mono hm
  have h3 : ((roundHalfEven (r * 10 ^ n) : ℚ)) ≤ ((roundHalfEven (s * 10 ^ n) : ℚ)) := by
    exact_mod_cast h2
  exact div_le_div_of_nonneg_right h3 hp.le |>.trans_eq rfl

theorem roundHalfEven_intCast (z : ℤ) : roundHalfEven (z : ℚ) = z := by
  simp only [roundHalfEven, ratFloor_eq, Int.floor_intCast]
  norm_num

theorem pyRound_intCast (z : ℤ) (n : ℕ) : pyRound (z : ℚ) n = z := by
  unfold pyRound
  have h1 : ((z : ℚ) * 10 ^ n) = ((z * 10 ^ n : ℤ) : ℚ) := by push_cast; ring
  rw [h1, roundHalfEven_intCast]
  have hp : ((10 : ℚ) ^ n) ≠ 0 := by positivity
  push_cast
  field_simp

theorem pyRound_zero (n : ℕ) : pyRound 0 n = 0 := by
  have := pyRound_intCast 0 n
  simpa using this

theorem pyRound_one (n : ℕ) : pyRound 1 n = 1 := by
  have := pyRound_intCast 1 n
  simpa using this

theorem pyRound_neg_one (n : ℕ) : pyRound (-1) n = -1 := by
  have := pyRound_intCast (-1) n
  simpa using this

theorem pyRound_nonneg (n : ℕ) {x : ℚ} (hx : 0 ≤ x) : 0 ≤ pyRound x n := by
  have := pyRound_mono n hx
  rwa [pyRound_zero] at this

theorem pyRound_nonpos (n : ℕ) {x : ℚ} (hx : x ≤ 0) : pyRound x n ≤ 0 := by
  have := pyRound_mono n hx
  rwa [pyRound_zero] at this

theorem pyRound_le_one (n : ℕ) {x : ℚ} (hx : x ≤ 1) : pyRound x n ≤ 1 := by
  have := pyRound_mono n hx
  rwa [pyRound_one] at this

theorem pyRound_ge_neg_one (n : ℕ) {x : ℚ} (hx : -1 ≤ x) : -1 ≤ pyRound x n := by
  have := pyRound_mono n hx
  rwa [pyRound_neg_one] at this

theorem clamp1_mem (x : ℚ) : -1 ≤ clamp1 x ∧ clamp1 x ≤ 1 := by
  unfold clamp1
  split_ifs <;> constructor <;> linarith

theorem clamp1_mono {x y : ℚ} (h : x ≤ y) : clamp1 x ≤ clamp1 y := by
  unfold clamp1
  split_ifs <;> linarith

theorem clamp1_nonneg {x : ℚ} (h : 0 ≤ x) : 0 ≤ clamp1 x := by
  unfold clamp1
  split_ifs <;> linarith

theorem clamp1_nonpos {x : ℚ} (h : x ≤ 0) : clamp1 x ≤ 0 := by
  unfold clamp1
  split_ifs <;> linarith

theorem closenessFactor_nonneg (t d : ℚ) : 0 ≤ closenessFactor t d :=
  le_max_left 0 _

theorem closenessFactor_lt_one {t d : ℚ} (ht : 0 < t) (hd : 0 ≤ d) :
    closenessFactor t d < 1 := by
  unfold closenessFactor
  have hden : 0 < t + 1/1000000000 := by linarith
  have : (t - d) / (t + 1/1000000000) < 1 := by
    rw [div_lt_one hden]
    linarith
  exact max_lt (by norm_num) this

theorem closenessFactor_eq_zero {t : ℚ} (ht : 0 < t) :
    closenessFactor t t = 0 := by
  unfold closenessFactor
  simp

theorem closenessFactor_anti {t d1 d2 : ℚ} (ht : 0 < t) (h : d1 ≤ d2) :
    closenessFactor t d2 ≤ closenessFactor t d1 := by
  unfold closenessFactor
  have hden : 0 < t + 1/1000000000 := by linarith
  apply max_le_max le_rfl
  apply div_le_div_of_nonneg_right ?_ hden.le
  linarith

theorem strengthFactor_bounds {s : ℚ} (hs : 1 ≤ s) :
    3/4 ≤ strengthFactor s ∧ strengthFactor s ≤ 3/2 := by
  unfold strengthFactor
  constructor
  · apply le_min (by norm_num)
    linarith
  · exact min_le_left _ _

theorem srSign_cases (dir : TradeDir) (typ : SRType) :
    srSign dir typ = 1 ∨ srSign dir typ = -1 := by
  cases dir <;> cases typ <;> simp [srSign]

-- =====================================================
-- C5 / C6: sr_location_score
-- =====================================================

unseal Rat.add Rat.mul Rat.sub Rat.inv Rat.ofScientific in
/-- C5 counterexample: at distance 0 on a favourable pairing with cluster
strength 1, the claim (closeness 1 at distance 0 times a strength factor in
[1, 1.5], clamped to [-1, 1]) forces the score 1; the code returns 0.75,
because `min(1.5, 0.5 + 0.25 * strength)` is 0.75 at strength 1. -/
theorem srLocationScore_strength_one_counterexample :
    srLocationScore 100 (some ⟨SRType.support, 100, 0, 1⟩) TradeDir.LONG
      (15/1000) = 3/4 ∧ ((3 : ℚ)/4) ≠ 1 := by
  constructor
  · decide
  · norm_num

/-- C5 (amended): `sr_location_score` is 0 outside the proximity threshold;
inside it equals the rounded clamp of sign × closeness × strength factor,
where the strength factor lies in [0.75, 1.5] for every strength ≥ 1 (not
[1, 1.5]), the closeness factor is strictly below 1 at distance 0 and 0 at
the threshold, the sign follows the direction/type pairing, and the result
stays in [-1, 1]. -/
theorem srLocationScore_amended (price : ℚ) (dir : TradeDir) (sr : NearestSR)
    (t : ℚ) (ht : 0 < t) (hstr : 1 ≤ sr.strength) :
    (t < sr.dist_pct → srLocationScore price (some sr) dir t = 0) ∧
    (0 ≤ sr.dist_pct → sr.dist_pct ≤ t →
      srLocationScore price (some sr) dir t =
        pyRound (clamp1 (srSign dir sr.typ * closenessFactor t sr.dist_pct *
          strengthFactor sr.strength)) 3 ∧
      3/4 ≤ strengthFactor sr.strength ∧ strengthFactor sr.strength ≤ 3/2 ∧
      0 ≤ closenessFactor t sr.dist_pct ∧ closenessFactor t sr.dist_pct < 1 ∧
      (sr.dist_pct = t → closenessFactor t sr.dist_pct = 0) ∧
      -1 ≤ srLocationScore price (some sr) dir t ∧
      srLocationScore price (some sr) dir t ≤ 1 ∧
      (srSign dir sr.typ = 1 → 0 ≤ srLocationScore price (some sr) dir t) ∧
      (srSign dir sr.typ = -1 → srLocationScore price (some sr) dir t ≤ 0)) := by
  constructor
  · intro h
    simp only [srLocationScore, if_pos h]
  · intro h0 hle
    have hnot : ¬ (sr.dist_pct > t) := not_lt.mpr hle
    have heq : srLocationScore price (some sr) dir t =
        pyRound (clamp1 (srSign dir sr.typ * closenessFactor t sr.dist_pct *
          strengthFactor sr.strength)) 3 := by
      simp only [srLocationScore, if_neg hnot]
    have hsf := strengthFactor_bounds hstr
    refine ⟨heq, hsf.1, hsf.2, closenessFactor_nonneg _ _,
      closenessFactor_lt_one ht h0, ?_, ?_, ?_, ?_, ?_⟩
    · intro hdt
      rw [hdt]
      exact closenessFactor_eq_zero ht
    · rw [heq]
      exact pyRound_ge_neg_one _ (clamp1_mem _).1
    · rw [heq]
      exact pyRound_le_one _ (clamp1_mem _).2
    · intro hsign
      rw [heq]
      apply pyRound_nonneg
      apply clamp1_nonneg
      rw [hsign, one_mul]
      exact mul_nonneg (closenessFactor_nonneg _ _) (le_trans (by norm_num) hsf.1)
    · intro hsign
      rw [heq]
      apply pyRound_nonpos
      apply clamp1_nonpos
      rw [hsign]
      have hcfs : 0 ≤ closenessFactor t sr.dist_pct * strengthFactor sr.strength :=
        mul_nonneg (closenessFactor_nonneg _ _) (le_trans (by norm_num) hsf.1)
      nlinarith

unseal Rat.add Rat.mul Rat.sub Rat.inv Rat.ofScientific in
/-- C5 witness: the amended theorem applied at a concrete record. -/
theorem srLocationScore_amended_witness :
    srLocationScore 100 (some ⟨SRType.support, 100, 2/100, 2⟩) TradeDir.LONG
      (15/1000) = 0 :=
  (srLocationScore_amended 100 TradeDir.LONG ⟨SRType.support, 100, 2/100, 2⟩
    (15/1000) (by norm_num) (by norm_num)).1 (by norm_num)

unseal Rat.add Rat.mul Rat.sub Rat.inv Rat.ofScientific in
/-- C6 counterexample: for the fixed unfavourable pairing resistance/LONG
and fixed strength 1, the score increases (−0.75 to −0.375) as distance
grows from 0 to 0.0075 inside the threshold, refuting "monotonically
non-increasing in distance for every fixed type and direction". -/
theorem srLocationScore_monotonicity_counterexample :
    (0 : ℚ) ≤ 75/10000 ∧ (75/10000 : ℚ) ≤ 15/1000 ∧
    srLocationScore 100 (some ⟨SRType.resistance, 100, 0, 1⟩) TradeDir.LONG
        (15/1000) <
      srLocationScore 100 (some ⟨SRType.resistance, 100, 75/10000, 1⟩)
        TradeDir.LONG (15/1000) := by
  refine ⟨by norm_num, by norm_num, ?_⟩
  decide

/-- C6 (amended): outside the threshold the score is 0; inside, for fixed
strength, type and direction, the score magnitude is non-increasing in the
distance fraction — the signed score itself is non-increasing for
favourable pairings and non-decreasing for unfavourable ones. -/
theorem srLocationScore_monotone (price lvl str : ℚ) (dir : TradeDir)
    (typ : SRType) (hstr : 1 ≤ str) (t : ℚ) (ht : 0 < t) (d1 d2 : ℚ)
    (h0 : 0 ≤ d1) (h12 : d1 ≤ d2) :
    (∀ d, t < d →
      srLocationScore price (some ⟨typ, lvl, d, str⟩) dir t = 0) ∧
    (d2 ≤ t →
      |srLocationScore price (some ⟨typ, lvl, d2, str⟩) dir t| ≤
        |srLocationScore price (some ⟨typ, lvl, d1, str⟩) dir t| ∧
      (srSign dir typ = 1 →
        srLocationScore price (some ⟨typ, lvl, d2, str⟩) dir t ≤
          srLocationScore price (some ⟨typ, lvl, d1, str⟩) dir t) ∧
      (srSign dir typ = -1 →
        srLocationScore price (some ⟨typ, lvl, d1, str⟩) dir t ≤
          srLocationScore price (some ⟨typ, lvl, d2, str⟩) dir t)) := by
  constructor
  · intro d hd
    simp only [srLocationScore, if_pos hd]
  · intro hd2t
    have h1t : d1 ≤ t := le_trans h12 hd2t
    have e1 : srLocationScore price (some ⟨typ, lvl, d1, str⟩) dir t =
        pyRound (clamp1 (srSign dir typ * closenessFactor t d1 *
          strengthFactor str)) 3 := by
      simp only [srLocationScore, if_neg (not_lt.mpr h1t)]
    have e2 : srLocationScore price (some ⟨typ, lvl, d2, str⟩) dir t =
        pyRound (clamp1 (srSign dir typ * closenessFactor t d2 *
          strengthFactor str)) 3 := by
      simp only [srLocationScore, if_neg (not_lt.mpr hd2t)]
    have hsf : (0 : ℚ) ≤ strengthFactor str :=
      le_trans (by norm_num) (strengthFactor_bounds hstr).1
    have hcf : closenessFactor t d2 ≤ closenessFactor t d1 :=
      closenessFactor_anti ht h12
    rcases srSign_cases dir typ with hs | hs
    · have hx : srSign dir typ * closenessFactor t d2 * strengthFactor str ≤
          srSign dir typ * closenessFactor t d1 * strengthFactor str := by
        rw [hs, one_mul, one_mul]
        exact mul_le_mul_of_nonneg_right hcf hsf
      have hmono := pyRound_mono 3 (clamp1_mono hx)
      rw [← e1, ← e2] at hmono
      have hnn : 0 ≤ srLocationScore price (some ⟨typ, lvl, d2, str⟩) dir t := by
        rw [e2]
        apply pyRound_nonneg
        apply clamp1_nonneg
        rw [hs, one_mul]
        exact mul_nonneg (closenessFactor_nonneg _ _) hsf
      refine ⟨?_, fun _ => hmono, fun hcontra => ?_⟩
      · rw [abs_of_nonneg hnn, abs_of_nonneg (le_trans hnn hmono)]
        exact hmono
      · rw [hs] at hcontra
        norm_num at hcontra
    · have hx : srSign dir typ * closenessFactor t d1 * strengthFactor str ≤
          srSign dir typ * closenessFactor t d2 * strengthFactor str := by
        rw [hs]
        have := mul_le_mul_of_nonneg_right hcf hsf
        nlinarith
      have hmono := pyRound_mono 3 (clamp1_mono hx)
      rw [← e1, ← e2] at hmono
      have hnp : srLocationScore price (some ⟨typ, lvl, d2, str⟩) dir t ≤ 0 := by
        rw [e2]
        apply pyRound_nonpos
        apply clamp1_nonpos
        rw [hs]
        have := mul_nonneg (closenessFactor_nonneg t d2) hsf
        nlinarith
      refine ⟨?_, fun hcontra => ?_, fun _ => hmono⟩
      · rw [abs_of_nonpos hnp, abs_of_nonpos (le_trans hmono hnp)]
        linarith
      · rw [hs] at hcontra
        norm_num at hcontra

unseal Rat.add Rat.mul Rat.sub Rat.inv Rat.ofScientific in
/-- C6 witness: the amended theorem applied at concrete distances. -/
theorem srLocationScore_monotone_witness :
    |srLocationScore 100 (some ⟨SRType.support, 100, 1/100, 2⟩) TradeDir.LONG
        (15/1000)| ≤
      |srLocationScore 100 (some ⟨SRType.support, 100, 5/1000, 2⟩) TradeDir.LONG
        (15/1000)| ∧
    (srSign TradeDir.LONG SRType.support = 1 →
      srLocationScore 100 (some ⟨SRType.support, 100, 1/100, 2⟩) TradeDir.LONG
          (15/1000) ≤
        srLocationScore 100 (some ⟨SRType.support, 100, 5/1000, 2⟩) TradeDir.LONG
          (15/1000)) ∧
    (srSign TradeDir.LONG SRType.support = -1 →
      srLocationScore 100 (some ⟨SRType.support, 100, 5/1000, 2⟩) TradeDir.LONG
          (15/1000) ≤
        srLocationScore 100 (some ⟨SRType.support, 100, 1/100, 2⟩) TradeDir.LONG
          (15/1000)) :=
  (srLocationScore_monotone 100 100 2 TradeDir.LONG SRType.support
    (by norm_num) (15/1000) (by norm_num) (5/1000) (1/100) (by norm_num)
    (by norm_num)).2 (by norm_num)

-- =====================================================
-- C4 / C10: analyze_mtf
-- =====================================================

theorem bullish_not_bearish {c : Candle} (h : isBullish c = true) :
    isBearish c = false := by
  simp only [isBullish, decide_eq_true_eq] at h
  simp only [isBearish, decide_eq_false_iff_not]
  linarith

theorem bearish_not_bullish {c : Candle} (h : isBearish c = true) :
    isBullish c = false := by
  simp only [isBearish, decide_eq_true_eq] at h
  simp only [isBullish, decide_eq_false_iff_not]
  linarith

theorem persistenceScore_nil : persistenceScore [] = 0 := by
  simp [persistenceScore]

unseal Rat.add Rat.mul Rat.sub Rat.inv Rat.ofScientific in
/-- C4 counterexample: a bullish 5m candle against a bearish 15m candle
with a persistent (3 × bullish) 5m history sets conflict, but the resulting
strength (0.3) is not half of the undamped strength (0), because the
halving is applied before the persistence bonuses are added. -/
theorem mtf_halving_counterexample :
    isBullish ⟨10, 11⟩ = true ∧ isBearish ⟨10, 9⟩ = true ∧
    (analyzeMtf (some ⟨10, 11⟩) (some ⟨10, 9⟩)
      [⟨10, 11⟩, ⟨10, 11⟩, ⟨10, 11⟩] []).conflict = true ∧
    (analyzeMtf (some ⟨10, 11⟩) (some ⟨10, 9⟩)
        [⟨10, 11⟩, ⟨10, 11⟩, ⟨10, 11⟩] []).strength ≠
      (analyzeMtfUndamped (some ⟨10, 11⟩) (some ⟨10, 9⟩)
        [⟨10, 11⟩, ⟨10, 11⟩, ⟨10, 11⟩] []).strength / 2 := by
  decide

unseal Rat.add Rat.mul Rat.sub Rat.inv Rat.ofScientific in
/-- C4 (amended): when the latest 5m and 15m candles disagree in sign,
`analyze_mtf` sets conflict = true for every history input, and — when both
persistence bonuses are zero (e.g. empty histories) — the resulting
strength is exactly half of the strength the same inputs produce without
the conflict damping.  (With a nonzero persistence bonus the halving
applies only to the two directional votes, not to the bonuses.) -/
theorem mtf_conflict_halving (c5 c15 : Candle) (h5 h15 : List Candle)
    (hdis : (isBullish c5 = true ∧ isBearish c15 = true) ∨
            (isBearish c5 = true ∧ isBullish c15 = true)) :
    (analyzeMtf (some c5) (some c15) h5 h15).conflict = true ∧
    (persistenceScore h5 = 0 → persistenceScore h15 = 0 →
      (analyzeMtf (some c5) (some c15) h5 h15).strength =
        (analyzeMtfUndamped (some c5) (some c15) h5 h15).strength / 2) := by
  have hconf : mtfConflict (some c5) (some c15) = true := by
    rcases hdis with ⟨h1, h2⟩ | ⟨h1, h2⟩ <;> simp [mtfConflict, h1, h2]
  constructor
  · simp [analyzeMtf, hconf]
  · intro hp5 hp15
    rcases hdis with ⟨h1, h2⟩ | ⟨h1, h2⟩
    · have h1n := bullish_not_bearish h1
      have h2n := bearish_not_bullish h2
      simp only [analyzeMtf, analyzeMtfUndamped, mtfRawScore, vote5m, vote15m,
        hconf, h1, h2, h1n, h2n, hp5, hp15, if_true, if_false, Bool.true_eq,
        if_pos, ite_true, ite_false]
      norm_num
      decide
    · have h1n := bearish_not_bullish h1
      have h2n := bullish_not_bearish h2
      simp only [analyzeMtf, analyzeMtfUndamped, mtfRawScore, vote5m, vote15m,
        hconf, h1, h2, h1n, h2n, hp5, hp15, if_true, if_false, Bool.true_eq,
        if_pos, ite_true, ite_false]
      norm_num
      decide

unseal Rat.add Rat.mul Rat.sub Rat.inv Rat.ofScientific in
/-- C4 witness: the amended theorem applied to one bullish and one bearish
candle with empty histories. -/
theorem mtf_conflict_halving_witness :
    (analyzeMtf (some ⟨10, 11⟩) (some ⟨10, 9⟩) [] []).conflict = true ∧
    (analyzeMtf (some ⟨10, 11⟩) (some ⟨10, 9⟩) [] []).strength =
      (analyzeMtfUndamped (some ⟨10, 11⟩) (some ⟨10, 9⟩) [] []).strength / 2 :=
  ⟨(mtf_conflict_halving ⟨10, 11⟩ ⟨10, 9⟩ [] []
      (Or.inl ⟨by decide, by decide⟩)).1,
   (mtf_conflict_halving ⟨10, 11⟩ ⟨10, 9⟩ [] []
      (Or.inl ⟨by decide, by decide⟩)).2 persistenceScore_nil persistenceScore_nil⟩

unseal Rat.add Rat.mul Rat.sub Rat.inv Rat.ofScientific in
/-- C10: the persistence bonus is always one of 0, 0.3, 0.6 (never
negative), `analyze_mtf` adds it with positive sign to the signed
directional score, and consequently a history of three bearish candles
moves a bearish score toward BULLISH — strictly increasing the raw score
and strictly decreasing its magnitude. -/
theorem persistence_bonus_nonneg :
    (∀ h : List Candle, persistenceScore h = 0 ∨ persistenceScore h = 3/10 ∨
      persistenceScore h = 3/5) ∧
    (∀ c5 c15 h5 h15, mtfRawScore c5 c15 h5 h15 =
      mtfRawScore c5 c15 [] [] + persistenceScore h5 + persistenceScore h15) ∧
    (∀ (c5 c15 b1 b2 b3 : Candle), isBearish c5 = true → isBearish c15 = true →
      isBearish b1 = true → isBearish b2 = true → isBearish b3 = true →
      persistenceScore [b1, b2, b3] = 3/5 ∧
      mtfRawScore (some c5) (some c15) [] [] <
        mtfRawScore (some c5) (some c15) [b1, b2, b3] [] ∧
      |mtfRawScore (some c5) (some c15) [b1, b2, b3] []| <
        |mtfRawScore (some c5) (some c15) [] []|) := by
  refine ⟨?_, ?_, ?_⟩
  · intro h
    simp only [persistenceScore]
    split_ifs <;> norm_num
  · intro c5 c15 h5 h15
    simp only [mtfRawScore, persistenceScore_nil]
    ring
  · intro c5 c15 b1 b2 b3 hc5 hc15 hb1 hb2 hb3
    have hp : persistenceScore [b1, b2, b3] = 3/5 := by
      simp [persistenceScore, lastN, hb1, hb2, hb3,
        bearish_not_bullish hb1, bearish_not_bullish hb2,
        bearish_not_bullish hb3]
    have hconf : mtfConflict (some c5) (some c15) = false := by
      simp [mtfConflict, bearish_not_bullish hc5, bearish_not_bullish hc15,
        hc5, hc15]
    refine ⟨hp, ?_, ?_⟩
    · simp only [mtfRawScore, hconf, persistenceScore_nil, hp, if_false,
        Bool.false_eq_true]
      norm_num
    · simp only [mtfRawScore, hconf, persistenceScore_nil, hp, if_false,
        Bool.false_eq_true, vote5m, vote15m, hc5, hc15,
        bearish_not_bullish hc5, bearish_not_bullish hc15]
      norm_num
      rw [show |(7 : ℚ)/5| = 7/5 from abs_of_nonneg (by norm_num)]
      norm_num

unseal Rat.add Rat.mul Rat.sub Rat.inv Rat.ofScientific in
/-- C10 witness: the theorem applied to concrete bearish candles. -/
theorem persistence_bonus_nonneg_witness :
    persistenceScore [⟨10, 9⟩, ⟨10, 9⟩, ⟨10, 9⟩] = 3/5 ∧
    mtfRawScore (some ⟨10, 9⟩) (some ⟨10, 9⟩) [] [] <
      mtfRawScore (some ⟨10, 9⟩) (some ⟨10, 9⟩)
        [⟨10, 9⟩, ⟨10, 9⟩, ⟨10, 9⟩] [] ∧
    |mtfRawScore (some ⟨10, 9⟩) (some ⟨10, 9⟩)
        [⟨10, 9⟩, ⟨10, 9⟩, ⟨10, 9⟩] []| <
      |mtfRawScore (some ⟨10, 9⟩) (some ⟨10, 9⟩) [] []| :=
  persistence_bonus_nonneg.2.2 ⟨10, 9⟩ ⟨10, 9⟩ ⟨10, 9⟩ ⟨10, 9⟩ ⟨10, 9⟩
    (by decide) (by decide) (by decide) (by decide) (by decide)

-- =====================================================
-- C1 / C3: decision engine
-- =====================================================

/-- Shape of every result of `finalTradeDecision` on a CONFIRMED (i.e.
non-POTENTIAL) signal: a zero-score IGNORE from one of the hard gates, an
EXECUTE with score ≥ 8, a PREPARE with score in [6.5, 8), or a final
IGNORE with score < 6.5. -/
theorem finalTradeDecision_confirmed_shape (fATR : AtrFn) (fVolat : VolatFn)
    (fVolume : VolumeFn) (fLiq : LiqFn) (inst : String)
    (prices highs lows closes volumes : List ℚ) (regime : String)
    (bias : Bias) (vwap : VWAPContext) (s : PullbackSignal)
    (hsig : ¬(s.signal = SigClass.POTENTIAL)) :
    (∃ reason, finalTradeDecision fATR fVolat fVolume fLiq inst prices highs
        lows closes volumes regime bias vwap (some s) =
      { state := DState.IGNORE, score := 0, direction := none,
        components := [], reason := reason }) ∨
    (∃ sc comps, 8 ≤ sc ∧ finalTradeDecision fATR fVolat fVolume fLiq inst
        prices highs lows closes volumes regime bias vwap (some s) =
      { state := DState.EXECUTE s.direction, score := sc,
        direction := some s.direction, components := comps,
        reason := "institutional-grade setup" }) ∨
    (∃ sc comps, 13/2 ≤ sc ∧ sc < 8 ∧ finalTradeDecision fATR fVolat fVolume
        fLiq inst prices highs lows closes volumes regime bias vwap (some s) =
      { state := DState.PREPARE s.direction, score := sc,
        direction := some s.direction, components := comps,
        reason := "good setup but needs trigger" }) ∨
    (∃ sc comps reason, sc < 13/2 ∧ finalTradeDecision fATR fVolat fVolume
        fLiq inst prices highs lows closes volumes regime bias vwap (some s) =
      { state := DState.IGNORE, score := sc, direction := none,
        components := comps, reason := reason }) := by
  simp only [finalTradeDecision]
  rw [if_neg hsig]
  by_cases h1 : s.direction = TradeDir.LONG ∧ ¬(bias = Bias.BULLISH)
  · rw [if_pos h1]
    exact Or.inl ⟨_, rfl⟩
  rw [if_neg h1]
  by_cases h2 : s.direction = TradeDir.SHORT ∧ ¬(bias = Bias.BEARISH)
  · rw [if_pos h2]
    exact Or.inl ⟨_, rfl⟩
  rw [if_neg h2]
  by_cases h3 : ¬(regime = "TRENDING")
  · rw [if_pos h3]
    exact Or.inl ⟨_, rfl⟩
  rw [if_neg h3]
  by_cases h4 : s.direction = TradeDir.LONG ∧ ¬(vwap.acceptance = Accept.ABOVE)
  · rw [if_pos h4]
    exact Or.inl ⟨_, rfl⟩
  rw [if_neg h4]
  by_cases h5 : s.direction = TradeDir.SHORT ∧ ¬(vwap.acceptance = Accept.BELOW)
  · rw [if_pos h5]
    exact Or.inl ⟨_, rfl⟩
  rw [if_neg h5]
  by_cases h6 : (fVolume volumes closes).score < 1
  · rw [if_pos h6]
    exact Or.inl ⟨_, rfl⟩
  rw [if_neg h6]
  by_cases h7 : ¬((fVolat (if 1 < closes.length
      then idxNeg closes 1 0 - idxNeg closes 2 0 else 0)
      (fATR highs lows closes)).state = "EXPANDING")
  · rw [if_pos h7]
    exact Or.inl ⟨_, rfl⟩
  rw [if_neg h7]
  by_cases h8 : (fLiq volumes).score < 0
  · rw [if_pos h8]
    exact Or.inl ⟨_, rfl⟩
  rw [if_neg h8]
  by_cases h9 : ¬((priceActionContext closes highs lows closes none none).quality = "HIGH")
  · rw [if_pos h9]
    exact Or.inl ⟨_, rfl⟩
  rw [if_neg h9]
  by_cases h10 : srLocationScore (idxNeg closes 1 0) s.nearest_level
      s.direction (15/1000) ≤ 0
  · rw [if_pos h10]
    exact Or.inl ⟨_, rfl⟩
  rw [if_neg h10]
  split_ifs with h11 h12
  · exact Or.inr (Or.inl ⟨_, _, h11, rfl⟩)
  · exact Or.inr (Or.inr (Or.inl ⟨_, _, h12, not_le.mp h11, rfl⟩))
  · exact Or.inr (Or.inr (Or.inr ⟨_, _, _, not_le.mp h12, rfl⟩))

unseal Rat.add Rat.mul Rat.sub Rat.inv Rat.ofScientific in
/-- C1 (amended): the decision engine never returns EXECUTE_* with score
below 8.0; every returned score ≥ 8.0 is an EXECUTE and every returned
score in [6.5, 8.0) is a PREPARE (both boundaries inclusive); a PREPARE is
either such a threshold result or the POTENTIAL short-circuit, which
always carries the fixed score 2.0 (< 6.5). -/
theorem decision_score_thresholds (fATR : AtrFn) (fVolat : VolatFn)
    (fVolume : VolumeFn) (fLiq : LiqFn) (inst : String)
    (prices highs lows closes volumes : List ℚ) (regime : String)
    (bias : Bias) (vwap : VWAPContext) (ps : Option PullbackSignal)
    (r : DecisionResult)
    (hr : r = finalTradeDecision fATR fVolat fVolume fLiq inst prices highs
      lows closes volumes regime bias vwap ps) :
    (∀ d, r.state = DState.EXECUTE d → 8 ≤ r.score) ∧
    (∀ d, r.state = DState.PREPARE d → 13/2 ≤ r.score ∨ r.score = 2) ∧
    (8 ≤ r.score → ∃ d, r.state = DState.EXECUTE d) ∧
    (13/2 ≤ r.score → r.score < 8 → ∃ d, r.state = DState.PREPARE d) ∧
    (∀ s, ps = some s → s.signal = SigClass.POTENTIAL →
      r.state = DState.PREPARE s.direction ∧ r.score = 2) := by
  rcases ps with _ | s
  · have hnone : r =
        { state := DState.IGNORE, score := 0, direction := none,
          components := [], reason := "no pullback setup" } := hr
    subst hnone
    refine ⟨?_, ?_, ?_, ?_, ?_⟩
    · intro d h
      exact DState.noConfusion h
    · intro d h
      exact DState.noConfusion h
    · intro h
      exact absurd h (by decide)
    · intro h _
      exact absurd h (by decide)
    · intro s' h'
      exact Option.noConfusion h'
  · by_cases hsig : s.signal = SigClass.POTENTIAL
    · have hpot : r =
          { state := DState.PREPARE s.direction, score := 2,
            direction := some s.direction, components := [("structure", 2)],
            reason := "potential setup - waiting for strength" } := by
        rw [hr]
        simp only [finalTradeDecision]
        rw [if_pos hsig]
      subst hpot
      refine ⟨?_, ?_, ?_, ?_, ?_⟩
      · intro d h
        exact DState.noConfusion h
      · intro d _
        right
        rfl
      · intro h
        exact absurd (show (8 : ℚ) ≤ 2 from h) (by norm_num)
      · intro h _
        exact absurd (show (13 : ℚ)/2 ≤ 2 from h) (by norm_num)
      · intro s' h' _
        cases h'
        exact ⟨rfl, rfl⟩
    · rcases finalTradeDecision_confirmed_shape fATR fVolat fVolume fLiq inst
          prices highs lows closes volumes regime bias vwap s hsig with
        ⟨rsn, hEq⟩ | ⟨sc, comps, h8, hEq⟩ | ⟨sc, comps, h65, h8n, hEq⟩ |
        ⟨sc, comps, rsn, hlt, hEq⟩ <;> rw [← hr] at hEq <;> subst hEq
      · refine ⟨?_, ?_, ?_, ?_, ?_⟩
        · intro d h
          exact DState.noConfusion h
        · intro d h
          exact DState.noConfusion h
        · intro h
          exact absurd (show (8 : ℚ) ≤ 0 from h) (by norm_num)
        · intro h _
          exact absurd (show (13 : ℚ)/2 ≤ 0 from h) (by norm_num)
        · intro s' h' hsig'
          cases h'
          exact absurd hsig' hsig
      · refine ⟨?_, ?_, ?_, ?_, ?_⟩
        · intro d _
          exact h8
        · intro d h
          exact DState.noConfusion h
        · intro _
          exact ⟨s.direction, rfl⟩
        · intro _ hy
          exact absurd hy (not_lt.mpr h8)
        · intro s' h' hsig'
          cases h'
          exact absurd hsig' hsig
      · refine ⟨?_, ?_, ?_, ?_, ?_⟩
        · intro d h
          exact DState.noConfusion h
        · intro d _
          exact Or.inl h65
        · intro hx
          exact absurd hx (not_le.mpr h8n)
        · intro _ _
          exact ⟨s.direction, rfl⟩
        · intro s' h' hsig'
          cases h'
          exact absurd hsig' hsig
      · refine ⟨?_, ?_, ?_, ?_, ?_⟩
        · intro d h
          exact DState.noConfusion h
        · intro d h
          exact DState.noConfusion h
        · intro hx
          exact absurd hx (not_le.mpr (lt_of_lt_of_le hlt (by norm_num)))
        · intro hx _
          exact absurd hx (not_le.mpr hlt)
        · intro s' h' hsig'
          cases h'
          exact absurd hsig' hsig

/-- C1 witness: the amended theorem applied to a POTENTIAL signal. -/
theorem decision_score_thresholds_witness :
    ({ state := DState.PREPARE TradeDir.LONG, score := 2,
       direction := some TradeDir.LONG, components := [("structure", 2)],
       reason := "potential setup - waiting for strength" } :
        DecisionResult).state = DState.PREPARE potSig.direction ∧
    ({ state := DState.PREPARE TradeDir.LONG, score := 2,
       direction := some TradeDir.LONG, components := [("structure", 2)],
       reason := "potential setup - waiting for strength" } :
        DecisionResult).score = 2 :=
  (decision_score_thresholds atrNone volatExpanding volumeStrong liqOk "X"
    [] [] [] [] [] "TRENDING" Bias.BULLISH
    { vwap := 100, acceptance := Accept.ABOVE, score := 0 } (some potSig)
    _ rfl).2.2.2.2 potSig rfl rfl

/-- C3: on a CONFIRMED signal whose direction disagrees with the
higher-timeframe bias (LONG without BULLISH, SHORT without BEARISH), the
decision engine returns IGNORE with score 0, no direction, and the reason
"htf misaligned", regardless of every other input. -/
theorem decision_htf_mismatch_ignore (fATR : AtrFn) (fVolat : VolatFn)
    (fVolume : VolumeFn) (fLiq : LiqFn) (inst : String)
    (prices highs lows closes volumes : List ℚ) (regime : String)
    (bias : Bias) (vwap : VWAPContext) (s : PullbackSignal)
    (hsig : s.signal = SigClass.CONFIRMED)
    (hmis : (s.direction = TradeDir.LONG ∧ bias ≠ Bias.BULLISH) ∨
            (s.direction = TradeDir.SHORT ∧ bias ≠ Bias.BEARISH)) :
    finalTradeDecision fATR fVolat fVolume fLiq inst prices highs lows closes
      volumes regime bias vwap (some s) =
    { state := DState.IGNORE, score := 0, direction := none,
      components := [], reason := "htf misaligned" } := by
  have hsig' : ¬(s.signal = SigClass.POTENTIAL) := by
    rw [hsig]
    intro h
    exact SigClass.noConfusion h
  simp only [finalTradeDecision]
  rw [if_neg hsig']
  rcases hmis with ⟨hd, hb⟩ | ⟨hd, hb⟩
  · rw [if_pos ⟨hd, hb⟩]
  · have hnotfirst : ¬(s.direction = TradeDir.LONG ∧ ¬(bias = Bias.BULLISH)) := by
      intro hc
      rw [hd] at hc
      exact TradeDir.noConfusion hc.1
    rw [if_neg hnotfirst, if_pos ⟨hd, hb⟩]

/-- C3 witness: a CONFIRMED LONG signal under a BEARISH bias is ignored. -/
theorem decision_htf_mismatch_ignore_witness :
    finalTradeDecision atrNone volatExpanding volumeStrong liqOk "X"
      [] [] [] [] [] "TRENDING" Bias.BEARISH
      { vwap := 100, acceptance := Accept.ABOVE, score := 0 }
      (some { signal := SigClass.CONFIRMED, direction := TradeDir.LONG,
              score := 8, nearest_level := none, components := [] }) =
    { state := DState.IGNORE, score := 0, direction := none,
      components := [], reason := "htf misaligned" } :=
  decision_htf_mismatch_ignore atrNone volatExpanding volumeStrong liqOk "X"
    [] [] [] [] [] "TRENDING" Bias.BEARISH
    { vwap := 100, acceptance := Accept.ABOVE, score := 0 }
    { signal := SigClass.CONFIRMED, direction := TradeDir.LONG, score := 8,
      nearest_level := none, components := [] }
    rfl (Or.inl ⟨rfl, by decide⟩)

-- =====================================================
-- C2: pullback detector
-- =====================================================

set_option maxRecDepth 4000 in
/-- Characterisation of `classifySignal`: any returned signal carries the
given direction, nearest level and components, and its class is decided by
the component total against the 7.0 / 5.0 thresholds. -/
theorem classifySignal_spec (td : TradeDir) (nearest : NearestSR)
    (comps : List (String × ℚ)) (s : PullbackSignal)
    (h : classifySignal td nearest comps = some s) :
    s.direction = td ∧ s.nearest_level = some nearest ∧ s.components = comps ∧
    (s.signal = SigClass.CONFIRMED ↔ 7 ≤ (comps.map Prod.snd).sum) ∧
    (s.signal = SigClass.POTENTIAL ↔
      (5 ≤ (comps.map Prod.snd).sum ∧ (comps.map Prod.snd).sum < 7)) ∧
    5 ≤ (comps.map Prod.snd).sum := by
  unfold classifySignal at h
  split_ifs at h with h7 h5
  · cases h
    refine ⟨rfl, rfl, rfl, ⟨fun _ => h7, fun _ => rfl⟩, ?_, ?_⟩
    · constructor
      · intro hcon
        exact SigClass.noConfusion hcon
      · intro hcon
        exact absurd h7 (not_le.mpr hcon.2)
    · exact le_trans (by norm_num) h7
  · cases h
    refine ⟨rfl, rfl, rfl, ?_, ?_, h5⟩
    · constructor
      · intro hcon
        exact SigClass.noConfusion hcon
      · intro hcon
        exact absurd hcon h7
    · exact ⟨fun _ => ⟨h5, not_le.mp h7⟩, fun _ => rfl⟩

/-- C2: whenever the pullback detector returns a signal, the nearest SR
level was found within 1.5% of the last price and pairs support+BULLISH
(direction LONG) or resistance+BEARISH (direction SHORT); and the returned
classification is CONFIRMED iff the 6-component total is ≥ 7.0, POTENTIAL
iff it is in [5.0, 7.0) — a total below 5.0 is never returned. -/
theorem pullback_pairing_classification (fATR : AtrFn) (fVolat : VolatFn)
    (fVolume : VolumeFn) (opens highs lows closes volumes : List ℚ)
    (htf : Bias) (s : PullbackSignal)
    (hs : detectPullbackSignal fATR fVolat fVolume opens highs lows closes
      volumes htf 40 = some s) :
    ∃ nearest,
      getNearestSr (idxNeg closes 1 0)
        (computeSrLevels highs lows 240 5 (5/1000) 5).1
        (computeSrLevels highs lows 240 5 (5/1000) 5).2 (15/1000) =
          some nearest ∧
      s.nearest_level = some nearest ∧
      ((nearest.typ = SRType.support ∧ htf = Bias.BULLISH ∧
        s.direction = TradeDir.LONG) ∨
       (nearest.typ = SRType.resistance ∧ htf = Bias.BEARISH ∧
        s.direction = TradeDir.SHORT)) ∧
      (s.signal = SigClass.CONFIRMED ↔ 7 ≤ (s.components.map Prod.snd).sum) ∧
      (s.signal = SigClass.POTENTIAL ↔
        (5 ≤ (s.components.map Prod.snd).sum ∧
         (s.components.map Prod.snd).sum < 7)) ∧
      5 ≤ (s.components.map Prod.snd).sum := by
  rw [detectPullbackSignal.eq_def] at hs
  by_cases hlen : closes.length < 40
  · rw [if_pos hlen] at hs
    exact Option.noConfusion hs
  rw [if_neg hlen] at hs
  split at hs
  · exact Option.noConfusion hs
  next nearest heq =>
    split at hs
    · exact Option.noConfusion hs
    next td heqdir =>
      have hpair : (nearest.typ = SRType.support ∧ htf = Bias.BULLISH ∧
          td = TradeDir.LONG) ∨
          (nearest.typ = SRType.resistance ∧ htf = Bias.BEARISH ∧
          td = TradeDir.SHORT) := by
        by_cases hc1 : nearest.typ = SRType.support ∧ htf = Bias.BULLISH
        · rw [if_pos hc1] at heqdir
          injection heqdir with h
          exact Or.inl ⟨hc1.1, hc1.2, h.symm⟩
        · rw [if_neg hc1] at heqdir
          by_cases hc2 : nearest.typ = SRType.resistance ∧ htf = Bias.BEARISH
          · rw [if_pos hc2] at heqdir
            injection heqdir with h
            exact Or.inr ⟨hc2.1, hc2.2, h.symm⟩
          · rw [if_neg hc2] at heqdir
            exact Option.noConfusion heqdir
      split at hs
      · exact Option.noConfusion hs
      next atr hatr =>
        split at hs
        · exact Option.noConfusion hs
        split at hs
        · exact Option.noConfusion hs
        split at hs
        · exact Option.noConfusion hs
        split at hs
        · exact Option.noConfusion hs
        split at hs
        · exact Option.noConfusion hs
        split at hs
        · exact Option.noConfusion hs
        split at hs
        · exact Option.noConfusion hs
        split at hs
        · exact Option.noConfusion hs
        obtain ⟨hdir, hnl, hcomps, hciff, hpiff, h5⟩ :=
          classifySignal_spec _ _ _ _ hs
        refine ⟨nearest, heq, hnl, ?_, ?_, ?_, ?_⟩
        · rcases hpair with ⟨ha, hb, hc⟩ | ⟨ha, hb, hc⟩
          · exact Or.inl ⟨ha, hb, by rw [hdir, hc]⟩
          · exact Or.inr ⟨ha, hb, by rw [hdir, hc]⟩
        · rw [hcomps]
          exact hciff
        · rw [hcomps]
          exact hpiff
        · rw [hcomps]
          exact h5

set_option maxRecDepth 100000 in
unseal Rat.add Rat.mul Rat.sub Rat.inv Rat.ofScientific in
/-- C2 witness: the theorem applied to a concrete 40-bar history on which
the detector fires (a POTENTIAL LONG at a support cluster). -/
theorem pullback_pairing_classification_witness :
    ∃ nearest,
      getNearestSr (idxNeg wCloses 1 0)
        (computeSrLevels wHighs wLows 240 5 (5/1000) 5).1
        (computeSrLevels wHighs wLows 240 5 (5/1000) 5).2 (15/1000) =
          some nearest ∧
      wSig.nearest_level = some nearest ∧
      ((nearest.typ = SRType.support ∧ Bias.BULLISH = Bias.BULLISH ∧
        wSig.direction = TradeDir.LONG) ∨
       (nearest.typ = SRType.resistance ∧ Bias.BULLISH = Bias.BEARISH ∧
        wSig.direction = TradeDir.SHORT)) ∧
      (wSig.signal = SigClass.CONFIRMED ↔
        7 ≤ (wSig.components.map Prod.snd).sum) ∧
      (wSig.signal = SigClass.POTENTIAL ↔
        (5 ≤ (wSig.components.map Prod.snd).sum ∧
         (wSig.components.map Prod.snd).sum < 7)) ∧
      5 ≤ (wSig.components.map Prod.snd).sum :=
  pullback_pairing_classification atrOne volatExpanding volumeStrong
    wOpens wHighs wLows wCloses wVolumes Bias.BULLISH wSig (by decide)

-- =====================================================
-- C7 / C8 / C9: scanner
-- =====================================================

theorem lookupBars_setBars (m : List (String × List Bar)) (k : String)
    (v : List Bar) (i : String) :
    lookupBars (setBars m k v) i = if k = i then v else lookupBars m i := by
  induction m with
  | nil =>
    simp only [setBars, lookupBars]
  | cons hd tl ih =>
    obtain ⟨k', v'⟩ := hd
    by_cases hk : k' = k
    · subst hk
      simp only [setBars, if_pos rfl, lookupBars]
      split_ifs <;> simp_all [lookupBars]
    · simp only [setBars, if_neg hk, lookupBars, ih]
      split_ifs <;> simp_all

theorem truncRight_length_le {α : Type} (cap : ℕ) (l : List α) :
    (truncRight cap l).length ≤ cap := by
  simp only [truncRight, List.length_drop]
  omega

theorem pushRing_length_le {α : Type} (cap : ℕ) (l : List α) (a : α) :
    (pushRing cap l a).length ≤ cap :=
  truncRight_length_le cap (l ++ [a])

theorem pushRing_at_capacity {α : Type} {cap : ℕ} {l : List α} (a : α)
    (hlen : l.length = cap) (hcap : 1 ≤ cap) :
    pushRing cap l a = l.drop 1 ++ [a] := by
  simp only [pushRing, truncRight, List.length_append, List.length_singleton]
  rw [show l.length + 1 - cap = 1 by omega]
  rw [List.drop_append_of_le_length (by omega)]

theorem pushRing_dropLast_suffix {α : Type} (cap : ℕ) (l : List α) (a : α) :
    (pushRing cap l a).dropLast <:+ l := by
  simp only [pushRing, truncRight, List.length_append, List.length_singleton]
  rcases le_or_lt (l.length + 1 - cap) l.length with hle | hlt
  · rw [List.drop_append_of_le_length hle, List.dropLast_concat]
    exact List.drop_suffix _ l
  · rw [List.drop_eq_nil_of_le (by simp; omega)]
    exact List.nil_suffix

theorem pushRing_getLast {α : Type} {cap : ℕ} (l : List α) (a : α)
    (hcap : 1 ≤ cap) : (pushRing cap l a).getLast? = some a := by
  simp only [pushRing, truncRight, List.length_append, List.length_singleton]
  rw [List.drop_append_of_le_length (by omega)]
  exact List.getLast?_concat _

unseal Rat.add Rat.mul Rat.sub Rat.inv Rat.ofScientific in
/-- C7 counterexample: a bar closed via `append_ohlc_bar` for minute 0 is
mutated in place (high, close and volume change) by a subsequent
`append_tick` whose timestamp falls in the same minute. -/
theorem closed_bar_mutation_counterexample :
    lookupBars ((appendOhlcBar (initScanner 600) "X" 0 10 10 10 10 1).1.bars)
      "X" = [⟨0, 10, 10, 10, 10, 1⟩] ∧
    lookupBars ((appendTick
      (appendOhlcBar (initScanner 600) "X" 0 10 10 10 10 1).1
      "X" 30 99 5).bars) "X" = [⟨0, 10, 99, 10, 99, 6⟩] ∧
    (⟨0, 10, 10, 10, 10, 1⟩ : Bar) ≠ ⟨0, 10, 99, 10, 99, 6⟩ := by
  refine ⟨by decide, by decide, by decide⟩

/-- C7 (amended): a closed bar is never mutated by `append_ohlc_bar`, nor
by an `append_tick` whose minute differs from the last stored bar's minute
key: in both cases the new buffer minus its freshly written last element is
a suffix of the old buffer (bars are only evicted from the front, never
changed).  In particular a tick followed by a bar close for a later minute
leaves the earlier bar intact.  (A tick in the *same* minute as the last
closed bar does mutate it — the counterexample above.) -/
theorem closed_bars_immutable :
    (∀ (st : ScannerState) (inst : String) (time : ℕ) (o h l c v : ℚ),
      (lookupBars ((appendOhlcBar st inst time o h l c v).1.bars)
        inst).dropLast <:+ lookupBars st.bars inst) ∧
    (∀ (st : ScannerState) (inst : String) (ts : ℕ) (p v : ℚ),
      (∀ b, (lookupBars st.bars inst).getLast? = some b → ¬(b.time = ts / 60)) →
      (lookupBars ((appendTick st inst ts p v).bars) inst).dropLast <:+
        lookupBars st.bars inst) ∧
    (∀ (st : ScannerState) (inst : String) (ts : ℕ) (p v : ℚ) (time : ℕ)
      (o h l c v2 : ℚ),
      (lookupBars ((appendOhlcBar (appendTick st inst ts p v) inst time o h l
        c v2).1.bars) inst).dropLast <:+
        lookupBars (appendTick st inst ts p v).bars inst) := by
  have H1 : ∀ (st : ScannerState) (inst : String) (time : ℕ) (o h l c v : ℚ),
      (lookupBars ((appendOhlcBar st inst time o h l c v).1.bars)
        inst).dropLast <:+ lookupBars st.bars inst := by
    intro st inst time o h l c v
    have heq : lookupBars ((appendOhlcBar st inst time o h l c v).1.bars) inst
        = pushRing st.maxLen (lookupBars st.bars inst) ⟨time, o, h, l, c, v⟩ := by
      simp [appendOhlcBar, lookupBars_setBars]
    rw [heq]
    exact pushRing_dropLast_suffix _ _ _
  refine ⟨H1, ?_, fun st inst ts p v time o h l c v2 => H1 _ _ _ _ _ _ _ _⟩
  intro st inst ts p v hno
  rcases hlast : (lookupBars st.bars inst).getLast? with _ | b
  · have heq : lookupBars ((appendTick st inst ts p v).bars) inst =
        pushRing st.maxLen (lookupBars st.bars inst)
          ⟨ts / 60, p, p, p, p, v⟩ := by
      simp [appendTick, hlast, lookupBars_setBars]
    rw [heq]
    exact pushRing_dropLast_suffix _ _ _
  · have hne : ¬(b.time = ts / 60) := hno b hlast
    have heq : lookupBars ((appendTick st inst ts p v).bars) inst =
        pushRing st.maxLen (lookupBars st.bars inst)
          ⟨ts / 60, p, p, p, p, v⟩ := by
      simp [appendTick, hlast, hne, lookupBars_setBars]
    rw [heq]
    exact pushRing_dropLast_suffix _ _ _

unseal Rat.add Rat.mul Rat.sub Rat.inv Rat.ofScientific in
/-- C7 witness: the amended theorem applied to a concrete tick whose
minute differs from the stored bar. -/
theorem closed_bars_immutable_witness :
    (lookupBars ((appendTick
      (appendOhlcBar (initScanner 600) "X" 0 10 10 10 10 1).1
      "X" 90 99 5).bars) "X").dropLast <:+
      lookupBars ((appendOhlcBar (initScanner 600) "X" 0 10 10 10 10 1).1.bars)
        "X" :=
  closed_bars_immutable.2.1
    (appendOhlcBar (initScanner 600) "X" 0 10 10 10 10 1).1 "X" 90 99 5
    (by decide)

theorem appendOhlcBar_maxLen (st : ScannerState) (inst : String) (time : ℕ)
    (o h l c v : ℚ) : (appendOhlcBar st inst time o h l c v).1.maxLen =
      st.maxLen := rfl

theorem appendTick_maxLen (st : ScannerState) (inst : String) (ts : ℕ)
    (p v : ℚ) : (appendTick st inst ts p v).maxLen = st.maxLen := by
  simp only [appendTick]
  rcases (lookupBars st.bars inst).getLast? with _ | b <;> simp
  split_ifs <;> rfl

theorem replayBars_maxLen (rbars : List RawBar) (st : ScannerState)
    (inst : String) : (replayBars st inst rbars).maxLen = st.maxLen := by
  induction rbars generalizing st with
  | nil => rfl
  | cons rb tl ih =>
    simp only [replayBars, List.foldl_cons]
    split_ifs <;> exact ih _

theorem loadSnapshot_maxLen (data : List (String × List Bar))
    (st : ScannerState) : (loadSnapshot st data).maxLen = st.maxLen := by
  induction data generalizing st with
  | nil => rfl
  | cons kv tl ih =>
    simp only [loadSnapshot, List.foldl_cons]
    exact ih _

theorem runOp_maxLen (st : ScannerState) (op : ScanOp) :
    (runOp st op).maxLen = st.maxLen := by
  cases op with
  | ohlc inst time o h l c v => rfl
  | tick inst ts p v => exact appendTick_maxLen st inst ts p v
  | replay inst rbars => exact replayBars_maxLen rbars st inst
  | snapshot data => exact loadSnapshot_maxLen data st

theorem appendOhlcBar_bound (st : ScannerState) (inst : String) (time : ℕ)
    (o h l c v : ℚ)
    (hb : ∀ i, (lookupBars st.bars i).length ≤ st.maxLen) :
    ∀ i, (lookupBars ((appendOhlcBar st inst time o h l c v).1.bars) i).length
      ≤ st.maxLen := by
  intro i
  have : lookupBars ((appendOhlcBar st inst time o h l c v).1.bars) i =
      if inst = i then pushRing st.maxLen (lookupBars st.bars inst)
        ⟨time, o, h, l, c, v⟩ else lookupBars st.bars i := by
    simp [appendOhlcBar, lookupBars_setBars]
  rw [this]
  split_ifs
  · exact pushRing_length_le _ _ _
  · exact hb i

theorem appendTick_bound (st : ScannerState) (inst : String) (ts : ℕ)
    (p v : ℚ) (hb : ∀ i, (lookupBars st.bars i).length ≤ st.maxLen) :
    ∀ i, (lookupBars ((appendTick st inst ts p v).bars) i).length ≤
      st.maxLen := by
  intro i
  rcases hlast : (lookupBars st.bars inst).getLast? with _ | b
  · have : lookupBars ((appendTick st inst ts p v).bars) i =
        if inst = i then pushRing st.maxLen (lookupBars st.bars inst)
          ⟨ts / 60, p, p, p, p, v⟩ else lookupBars st.bars i := by
      simp [appendTick, hlast, lookupBars_setBars]
    rw [this]
    split_ifs
    · exact pushRing_length_le _ _ _
    · exact hb i
  · by_cases htime : b.time = ts / 60
    · have hne : lookupBars st.bars inst ≠ [] := by
        intro hnil
        rw [hnil] at hlast
        exact Option.noConfusion hlast
      obtain ⟨nb, hnb⟩ : ∃ nb : Bar,
          lookupBars ((appendTick st inst ts p v).bars) i =
          if inst = i then (lookupBars st.bars inst).dropLast ++ [nb]
          else lookupBars st.bars i := by
        exact ⟨{ b with high_p := max b.high_p p, low_p := min b.low_p p, close_p := p, volume := b.volume + v }, by simp [appendTick, hlast, htime, lookupBars_setBars]⟩
      rw [hnb]
      split_ifs with hi
      · have h1 : 1 ≤ (lookupBars st.bars inst).length :=
          List.length_pos.mpr hne
        have h2 := hb inst
        simp only [List.length_append, List.length_dropLast,
          List.length_singleton]
        omega
      · exact hb i
    · have : lookupBars ((appendTick st inst ts p v).bars) i =
          if inst = i then pushRing st.maxLen (lookupBars st.bars inst)
            ⟨ts / 60, p, p, p, p, v⟩ else lookupBars st.bars i := by
        simp [appendTick, hlast, htime, lookupBars_setBars]
      rw [this]
      split_ifs
      · exact pushRing_length_le _ _ _
      · exact hb i

theorem replayBars_bound (rbars : List RawBar) (st : ScannerState)
    (inst : String) (hb : ∀ i, (lookupBars st.bars i).length ≤ st.maxLen) :
    ∀ i, (lookupBars ((replayBars st inst rbars).bars) i).length ≤
      st.maxLen := by
  induction rbars generalizing st with
  | nil => exact hb
  | cons rb tl ih =>
    simp only [replayBars, List.foldl_cons]
    split_ifs with hv
    · have hstep : ∀ i, (lookupBars (setBars st.bars inst
          (pushRing st.maxLen (lookupBars st.bars inst) rb.toBar)) i).length ≤
          st.maxLen := by
        intro i
        rw [lookupBars_setBars]
        split_ifs
        · exact pushRing_length_le _ _ _
        · exact hb i
      exact ih _ hstep
    · exact ih _ hb

theorem loadSnapshot_bound (data : List (String × List Bar))
    (st : ScannerState) (hb : ∀ i, (lookupBars st.bars i).length ≤ st.maxLen) :
    ∀ i, (lookupBars ((loadSnapshot st data).bars) i).length ≤ st.maxLen := by
  induction data generalizing st with
  | nil => exact hb
  | cons kv tl ih =>
    simp only [loadSnapshot, List.foldl_cons]
    have hstep : ∀ i, (lookupBars (setBars st.bars kv.1
        (truncRight st.maxLen kv.2)) i).length ≤ st.maxLen := by
      intro i
      rw [lookupBars_setBars]
      split_ifs
      · exact truncRight_length_le _ _
      · exact hb i
    exact ih _ hstep

theorem runOp_bound (st : ScannerState) (op : ScanOp)
    (hb : ∀ i, (lookupBars st.bars i).length ≤ st.maxLen) :
    ∀ i, (lookupBars ((runOp st op).bars) i).length ≤ (runOp st op).maxLen := by
  rw [runOp_maxLen]
  cases op with
  | ohlc inst time o h l c v => exact appendOhlcBar_bound st inst time o h l c v hb
  | tick inst ts p v => exact appendTick_bound st inst ts p v hb
  | replay inst rbars => exact replayBars_bound rbars st inst hb
  | snapshot data => exact loadSnapshot_bound data st hb

theorem runOps_bound (ops : List ScanOp) (st : ScannerState)
    (hb : ∀ i, (lookupBars st.bars i).length ≤ st.maxLen) :
    ∀ i, (lookupBars ((runOps st ops).bars) i).length ≤
      (runOps st ops).maxLen := by
  induction ops generalizing st with
  | nil => exact hb
  | cons op tl ih =>
    simp only [runOps, List.foldl_cons]
    exact ih (runOp st op) (runOp_bound st op hb)

/-- C8: after any sequence of ingestion operations (bar close, tick,
replay, snapshot load) starting from a fresh store, every instrument
buffer holds at most `max_len` bars; an `append_ohlc_bar` at capacity
evicts exactly the oldest bar (FIFO); and the default capacity is 600. -/
theorem barstore_capacity_fifo (cap : ℕ) (ops : List ScanOp) (inst : String) :
    (lookupBars ((runOps (initScanner cap) ops).bars) inst).length ≤ cap ∧
    (∀ (st : ScannerState) (inst2 : String) (time : ℕ) (o h l c v : ℚ),
      (lookupBars st.bars inst2).length = st.maxLen → 1 ≤ st.maxLen →
      lookupBars ((appendOhlcBar st inst2 time o h l c v).1.bars) inst2 =
        (lookupBars st.bars inst2).drop 1 ++
          [{ time := time, open_p := o, high_p := h, low_p := l,
             close_p := c, volume := v }]) ∧
    DEFAULT_MAX_LEN = 600 := by
  refine ⟨?_, ?_, rfl⟩
  · have h0 : ∀ i, (lookupBars (initScanner cap).bars i).length ≤
        (initScanner cap).maxLen := by
      intro i
      simp [initScanner, lookupBars]
    have hml : (runOps (initScanner cap) ops).maxLen = cap := by
      have : ∀ (l : List ScanOp) (st : ScannerState),
          (runOps st l).maxLen = st.maxLen := by
        intro l
        induction l with
        | nil => intro st; rfl
        | cons op tl ih =>
          intro st
          simp only [runOps, List.foldl_cons] at ih ⊢
          rw [ih (runOp st op), runOp_maxLen]
      exact this ops (initScanner cap)
    have hres := runOps_bound ops (initScanner cap) h0 inst
    rwa [hml] at hres
  · intro st inst2 time o h l c v hlen hcap
    have : lookupBars ((appendOhlcBar st inst2 time o h l c v).1.bars) inst2 =
        pushRing st.maxLen (lookupBars st.bars inst2)
          ⟨time, o, h, l, c, v⟩ := by
      simp [appendOhlcBar, lookupBars_setBars]
    rw [this, pushRing_at_capacity _ hlen hcap]

unseal Rat.add Rat.mul Rat.sub Rat.inv Rat.ofScientific in
/-- C8 witness: the FIFO conjunct applied to a store at capacity 2 — the
oldest bar is evicted. -/
theorem barstore_capacity_fifo_witness :
    lookupBars ((appendOhlcBar
      { maxLen := 2, bars := [("X", [⟨0, 1, 1, 1, 1, 1⟩, ⟨1, 2, 2, 2, 2, 2⟩])],
        barsReceived := 0, barsClosed := 2 } "X" 2 3 3 3 3 3).1.bars) "X" =
      [⟨0, 1, 1, 1, 1, 1⟩, ⟨1, 2, 2, 2, 2, 2⟩].drop 1 ++ [⟨2, 3, 3, 3, 3, 3⟩] :=
  (barstore_capacity_fifo 2 [] "X").2.1
    { maxLen := 2, bars := [("X", [⟨0, 1, 1, 1, 1, 1⟩, ⟨1, 2, 2, 2, 2, 2⟩])],
      barsReceived := 0, barsClosed := 2 } "X" 2 3 3 3 3 3 (by decide) (by decide)

/-- C9: even when a registered bar-close listener raises, the bar has been
appended and the closed-bar counter incremented before dispatch (the state
is exactly the post-append state and does not depend on listener
outcomes), every registered listener is still invoked with the
(instrument, bar) pair, and no exception propagates — each listener
outcome is collected in place of being re-raised. -/
theorem listener_isolation (cbs : List Listener) (st : ScannerState)
    (inst : String) (time : ℕ) (o h l c v : ℚ)
    (hraise : ∃ e, Except.error e ∈
      (appendOhlcBarDispatch cbs st inst time o h l c v).2.2) :
    (appendOhlcBarDispatch cbs st inst time o h l c v).1 =
      (appendOhlcBar st inst time o h l c v).1 ∧
    (appendOhlcBarDispatch cbs st inst time o h l c v).1.barsClosed =
      st.barsClosed + 1 ∧
    (1 ≤ st.maxLen →
      (lookupBars ((appendOhlcBarDispatch cbs st inst time o h l c
        v).1.bars) inst).getLast? =
        some (appendOhlcBarDispatch cbs st inst time o h l c v).2.1) ∧
    (appendOhlcBarDispatch cbs st inst time o h l c v).2.2.length =
      cbs.length ∧
    (∀ i : ℕ, (appendOhlcBarDispatch cbs st inst time o h l c v).2.2[i]? =
      (cbs[i]?).map (fun cb => cb inst
        (appendOhlcBarDispatch cbs st inst time o h l c v).2.1)) := by
  refine ⟨rfl, rfl, ?_, ?_, ?_⟩
  · intro hcap
    have heq : lookupBars ((appendOhlcBarDispatch cbs st inst time o h l c
        v).1.bars) inst = pushRing st.maxLen (lookupBars st.bars inst)
          ⟨time, o, h, l, c, v⟩ := by
      simp [appendOhlcBarDispatch, appendOhlcBar, lookupBars_setBars]
    rw [heq]
    exact pushRing_getLast _ _ hcap
  · simp [appendOhlcBarDispatch]
  · intro i
    simp only [appendOhlcBarDispatch]
    exact List.getElem?_map _ cbs i

/-- C9 witness: a single listener that raises; the state is still updated
and the raising listener's outcome is collected, not propagated. -/
theorem listener_isolation_witness :
    (appendOhlcBarDispatch [boomListener] (initScanner 600)
      "X" 0 1 1 1 1 1).1 =
      (appendOhlcBar (initScanner 600) "X" 0 1 1 1 1 1).1 ∧
    (appendOhlcBarDispatch [boomListener] (initScanner 600)
      "X" 0 1 1 1 1 1).1.barsClosed = (initScanner 600).barsClosed + 1 ∧
    (1 ≤ (initScanner 600).maxLen →
      (lookupBars ((appendOhlcBarDispatch [boomListener]
        (initScanner 600) "X" 0 1 1 1 1 1).1.bars) "X").getLast? =
        some (appendOhlcBarDispatch [boomListener]
          (initScanner 600) "X" 0 1 1 1 1 1).2.1) ∧
    (appendOhlcBarDispatch [boomListener] (initScanner 600)
      "X" 0 1 1 1 1 1).2.2.length = [boomListener].length ∧
    (∀ i : ℕ, (appendOhlcBarDispatch [boomListener]
        (initScanner 600) "X" 0 1 1 1 1 1).2.2[i]? =
      (([boomListener] : List Listener)[i]?).map
        (fun cb => cb "X" (appendOhlcBarDispatch
          [boomListener] (initScanner 600)
          "X" 0 1 1 1 1 1).2.1)) :=
  listener_isolation [boomListener] (initScanner 600)
    "X" 0 1 1 1 1 1 ⟨"boom", by simp [appendOhlcBarDispatch, boomListener]⟩

unseal Rat.add Rat.mul Rat.sub Rat.inv Rat.ofScientific in
/-- C1 counterexample: a POTENTIAL signal short-circuits to
`PREPARE_{direction}` with fixed score 2.0, which is below the claimed
6.5 lower bound for every PREPARE decision. -/
theorem decision_prepare_below_threshold_counterexample :
    (finalTradeDecision atrNone volatExpanding volumeStrong liqOk "X"
      [] [] [] [] [] "TRENDING" Bias.BULLISH
      { vwap := 100, acceptance := Accept.ABOVE, score := 0 }
      (some potSig)).state = DState.PREPARE TradeDir.LONG ∧
    (finalTradeDecision atrNone volatExpanding volumeStrong liqOk "X"
      [] [] [] [] [] "TRENDING" Bias.BULLISH
      { vwap := 100, acceptance := Accept.ABOVE, score := 0 }
      (some potSig)).score = 2 ∧
    ((2 : ℚ) < 13/2) := by
  refine ⟨by decide, by decide, by norm_num⟩
